import Mathlib

/-!
# Verification of the Coup game engine (`newbot.py`)

A shallow embedding of the game-state data model and the operations of the
Coup Discord bot, translated directly from the source.  Players are
identified by opaque `Nat` handles; the Python insertion-ordered dict
`game_state['players']` is modelled as an association list; coins are `Int`
(Python integers); `random.shuffle` is modelled as an explicit permutation
parameter; Discord reaction windows are modelled as explicit response
inputs; paths where the Python code would raise (`KeyError`, `IndexError`)
or block forever are modelled as `none`.
-/

namespace Coup

/-- The five character cards (`card_images` keys, `court_deck` contents). -/
inductive Card : Type
  | Duke
  | Assassin
  | Contessa
  | Captain
  | Ambassador
  deriving DecidableEq, Repr

/-- Per-player state: `{"cards": [...], "coins": n}`. -/
structure PlayerData : Type where
  cards : List Card
  coins : Int
  deriving DecidableEq, Repr

/-- The roster: the insertion-ordered dict `game_state['players']`. -/
abbrev Roster := List (Nat × PlayerData)

/-- The per-guild game state (the fields of `games[guild_id]` that the game
logic reads and writes; timestamps, stats and message handles are
presentation-only and omitted). -/
structure GameState : Type where
  players : Roster
  court_deck : List Card
  discarded_cards : List Card
  game_started : Bool
  current_player : Option Nat
  deriving DecidableEq, Repr

/-- `["Duke", "Assassin", "Contessa", "Captain", "Ambassador"] * 3`:
the fresh 15-card court deck installed at game start / reset. -/
def freshDeck : List Card :=
  [Card.Duke, Card.Assassin, Card.Contessa, Card.Captain, Card.Ambassador,
   Card.Duke, Card.Assassin, Card.Contessa, Card.Captain, Card.Ambassador,
   Card.Duke, Card.Assassin, Card.Contessa, Card.Captain, Card.Ambassador]

/-- Dict lookup `players[p]` (first binding wins; keys are unique in any
state the code builds, since a Python dict cannot repeat keys). -/
def lookupP : Roster → Nat → Option PlayerData
  | [], _ => none
  | (q, d) :: rest, p => if q = p then some d else lookupP rest p

/-- Dict update `players[p] = f players[p]`: rewrites the binding of `p`
in place, preserving insertion order; no-op if `p` is absent. -/
def updateP : Roster → Nat → (PlayerData → PlayerData) → Roster
  | [], _, _ => []
  | (q, d) :: rest, p, f =>
    if q = p then (q, f d) :: rest else (q, d) :: updateP rest p f

/-- Dict deletion `del players[p]`: removes the binding of `p`,
preserving the order of the other entries. -/
def removeP : Roster → Nat → Roster
  | [], _ => []
  | (q, d) :: rest, p =>
    if q = p then rest else (q, d) :: removeP rest p

/-- `list.pop()`: remove and return the last element (the top of the deck). -/
def popTop (deck : List Card) : Option (Card × List Card) :=
  match deck.getLast? with
  | none => none
  | some c => some (c, deck.dropLast)

/-- The conserved quantity of the spec invariant:
`|Deck| + Σ|hand_i| + |DiscardPile|`. -/
def cardSum (s : GameState) : Nat :=
  s.court_deck.length + (s.players.map (fun pd => pd.2.cards.length)).sum
    + s.discarded_cards.length

/-- `is_player_alive`: in the roster and holding at least one card. -/
def is_player_alive (s : GameState) (p : Nat) : Bool :=
  match lookupP s.players p with
  | none => false
  | some d => !d.cards.isEmpty

/-- `check_win_condition`: the sole alive player if exactly one remains. -/
def check_win_condition (s : GameState) : Option Nat :=
  match s.players.filter (fun pd => is_player_alive s pd.1) with
  | [pd] => some pd.1
  | _ => none

/-- The cyclic scan of `get_next_player`'s `while` loop: starting at raw
index `i` (taken mod the key-list length), return the first alive player,
trying at most `fuel` positions.  `none` models the Python loop spinning
forever because no player is alive. -/
def next_alive_search (s : GameState) (keys : List Nat) : Nat → Nat → Option Nat
  | _, 0 => none
  | i, fuel + 1 =>
    match keys.get? (i % keys.length) with
    | none => none
    | some p =>
      if is_player_alive s p then some p
      else next_alive_search s keys (i + 1) fuel

/-- `get_next_player`: the next alive player in turn order after `cur`.
`none` models `ValueError` (`cur` not a key) or a non-terminating scan. -/
def get_next_player (s : GameState) (cur : Nat) : Option Nat :=
  let keys := s.players.map Prod.fst
  match keys.findIdx? (fun q => q = cur) with
  | none => none
  | some idx => next_alive_search s keys (idx + 1) keys.length

/-- `lose_influence_with_reveal`: pop the last card of `p`'s hand onto the
discard pile.  Returns the state plus the lost card (`none` inside = the
Python `return False` when the hand is already empty); outer `none` models
the `KeyError` when `p` is not in the roster. -/
def lose_influence (s : GameState) (p : Nat) : Option (GameState × Option Card) :=
  match lookupP s.players p with
  | none => none
  | some d =>
    match d.cards.getLast? with
    | none => some (s, none)
    | some lost =>
      some ({ s with
                players := updateP s.players p
                  (fun d0 => { d0 with cards := d0.cards.dropLast }),
                discarded_cards := s.discarded_cards ++ [lost] },
            some lost)

/-- `handle_card_swap`: put the named card from `p`'s hand at the bottom of
the deck, then draw the top card.  All error paths of the source (empty
deck, card not in hand, `p` absent) only log and leave the state unchanged. -/
def handle_card_swap (s : GameState) (p : Nat) (card_name : Card) : GameState :=
  if s.court_deck.length < 1 then s
  else
    match lookupP s.players p with
    | none => s
    | some d =>
      if card_name ∈ d.cards then
        match popTop (card_name :: s.court_deck) with
        | none => s
        | some (drawn, deck2) =>
          { s with
              court_deck := deck2,
              players := updateP s.players p
                (fun d0 => { d0 with cards := d0.cards.erase card_name ++ [drawn] }) }
      else s

/-- `handle_player_elimination`: if `p`'s hand is empty, compute the next
player (before deletion), delete `p`, and check the win condition; on a win
the whole table is reset (fresh shuffled deck, empty roster and discard).
Returns `(eliminated, game_ended, next_player)` plus the state. -/
def handle_player_elimination (shuffle : List Card → List Card)
    (s : GameState) (p : Nat) : Option (Bool × Bool × Option Nat × GameState) :=
  match lookupP s.players p with
  | none => none
  | some d =>
    if d.cards.isEmpty then
      match get_next_player s p with
      | none => none
      | some nxt =>
        let s1 : GameState := { s with players := removeP s.players p }
        match check_win_condition s1 with
        | some _ =>
          some (true, true, none,
            { s1 with
                game_started := false,
                players := [],
                current_player := none,
                court_deck := shuffle freshDeck,
                discarded_cards := [] })
        | none => some (true, false, some nxt, s1)
    else some (false, false, none, s)

/-- `handle_challenge`: adjudicate a challenge of `claimer`'s claim to hold
`required_card`.  Upheld iff the card is in the claimer's hand: then the
card is swapped back (bottom-insert + redraw) and the challenger loses one
influence; otherwise the claimer loses one influence.  Returns
`(claim_legitimate, game_ended, eliminated_player, next_player)` plus the
state; `none` models a `KeyError` on a roster access. -/
def handle_challenge (shuffle : List Card → List Card) (s : GameState)
    (claimer challenger : Nat) (required_card : Card) :
    Option (Bool × Bool × Option Nat × Option Nat × GameState) :=
  match lookupP s.players claimer with
  | none => none
  | some dc =>
    if required_card ∈ dc.cards then
      let s1 := handle_card_swap s claimer required_card
      match lookupP s1.players challenger with
      | none => none
      | some dch =>
        if 0 < dch.cards.length then
          match lose_influence s1 challenger with
          | none => none
          | some (s2, _) =>
            match handle_player_elimination shuffle s2 challenger with
            | none => none
            | some (elim, game_ended, nextP, s3) =>
              some (true, game_ended, if elim then some challenger else none, nextP, s3)
        else some (true, false, none, none, s1)
    else
      if 0 < dc.cards.length then
        match lose_influence s claimer with
        | none => none
        | some (s2, _) =>
          match handle_player_elimination shuffle s2 claimer with
          | none => none
          | some (elim, game_ended, nextP, s3) =>
            some (false, game_ended, if elim then some claimer else none, nextP, s3)
      else some (false, false, none, none, s)

/-- `handle_block_challenge`: the same adjudication for a block claim with a
disjunctive set of valid cards; `valid_card_found` is the first card of
`valid_cards` present in the blocker's hand. -/
def handle_block_challenge (shuffle : List Card → List Card) (s : GameState)
    (blocker challenger : Nat) (valid_cards : List Card) :
    Option (Bool × Bool × Option Nat × Option Nat × GameState) :=
  match lookupP s.players blocker with
  | none => none
  | some db =>
    match valid_cards.find? (fun c => c ∈ db.cards) with
    | some found =>
      let s1 := handle_card_swap s blocker found
      match lookupP s1.players challenger with
      | none => none
      | some dch =>
        if 0 < dch.cards.length then
          match lose_influence s1 challenger with
          | none => none
          | some (s2, _) =>
            match handle_player_elimination shuffle s2 challenger with
            | none => none
            | some (elim, game_ended, nextP, s3) =>
              some (true, game_ended, if elim then some challenger else none, nextP, s3)
        else some (true, false, none, none, s1)
    | none =>
      if 0 < db.cards.length then
        match lose_influence s blocker with
        | none => none
        | some (s2, _) =>
          match handle_player_elimination shuffle s2 blocker with
          | none => none
          | some (elim, game_ended, nextP, s3) =>
            some (false, game_ended, if elim then some blocker else none, nextP, s3)
      else some (false, false, none, none, s)

/-- `advance_turn`: advance the current-player pointer; if the chosen
player has departed the platform (`present cp = false`), delete them, run
the win check (resetting only `game_started`/`players`/`current_player` on
a win — the deck and discard pile are left as they are), and recurse.
`fuel` bounds the recursion (each recursive call follows a deletion);
`none` models non-termination of `get_next_player`. -/
def advance_turn (present : Nat → Bool) :
    Nat → GameState → Nat → Option GameState
  | 0, _, _ => none
  | fuel + 1, s, cur =>
    match (if (lookupP s.players cur).isSome then get_next_player s cur
           else (s.players.map Prod.fst).head?) with
    | none =>
      if (lookupP s.players cur).isSome then none
      else some s
    | some cp =>
      let s1 : GameState := { s with current_player := some cp }
      if present cp then some s1
      else
        let s2 : GameState := { s1 with players := removeP s1.players cp }
        match check_win_condition s2 with
        | some _ =>
          some { s2 with game_started := false, players := [], current_player := none }
        | none => advance_turn present fuel s2 cp

/-- `deal_cards`: pop two cards off the top of the deck for every roster
member, in insertion order.  The outer length check of the source makes the
per-player pops total; `none` is the `return False` failure. -/
def deal_loop (deck : List Card) : Roster → Option (List Card × Roster)
  | [] => some (deck, [])
  | (p, d) :: rest =>
    match popTop deck with
    | none => none
    | some (c1, deck1) =>
      match popTop deck1 with
      | none => none
      | some (c2, deck2) =>
        match deal_loop deck2 rest with
        | none => none
        | some (deckFin, restFin) =>
          some (deckFin, (p, { d with cards := [c1, c2] }) :: restFin)

/-- `deal_cards`: fails (returns `none`) when the deck holds fewer than
`2 * |players|` cards, otherwise deals two cards to every player. -/
def deal_cards (s : GameState) : Option GameState :=
  if s.court_deck.length < 2 * s.players.length then none
  else
    match deal_loop s.court_deck s.players with
    | none => none
    | some (deck2, players2) =>
      some { s with court_deck := deck2, players := players2 }

/-- The `!start` command.  `shuffle`/`pshuffle` stand for the two
`random.shuffle` calls (deck and seating order), `joiners` is the set of
users who reacted to the join message (a Python set, hence no duplicates)
and `dmOk p` says whether player `p`'s private channel accepted the dealt
hand.  Players whose DM fails are deleted from the roster *after* dealing,
and their dealt cards are not returned to the deck; the game then aborts
(`game_started := false`) if fewer than 2 players remain. -/
def start (shuffle : List Card → List Card) (pshuffle : List Nat → List Nat)
    (dmOk : Nat → Bool) (joiners : List Nat) (s : GameState) : GameState :=
  if s.game_started then s
  else
    let s1 : GameState :=
      { s with
          players := joiners.map (fun p => (p, ⟨[], 2⟩)),
          court_deck := shuffle freshDeck,
          discarded_cards := [] }
    if s1.players.length < 2 then s1
    else
      let s2 : GameState := { s1 with game_started := true }
      match deal_cards s2 with
      | none => { s2 with game_started := false }
      | some s3 =>
        let order := pshuffle (s3.players.map Prod.fst)
        let s4 : GameState :=
          { s3 with
              players := order.filterMap
                (fun p => (lookupP s3.players p).map (fun d => (p, d))),
              current_player := order.head? }
        let s5 : GameState :=
          { s4 with players := s4.players.filter (fun pd => dmOk pd.1) }
        if s5.players.length < 2 then { s5 with game_started := false }
        else s5

/-- The named rejection reasons of the validation helpers
(`validate_turn`, `validate_target`, `validate_self_target`,
`validate_coins`, `validate_action_allowed`) and of `steal`'s
no-coins-to-steal check. -/
inductive Reject : Type
  | notYourTurn
  | targetNotInGame
  | targetEliminated
  | selfTarget
  | insufficientCoins
  | mustCoup
  | noCoinsToSteal
  deriving DecidableEq, Repr

/-- Outcome of a response window offering only the challenge emoji. -/
inductive ChallengeWindow : Type
  | noResponse
  | challenge (challenger : Nat)
  deriving DecidableEq, Repr

/-- Outcome of a response window offering only the block emoji, together
with the nested challenge-of-block window. -/
inductive BlockWindow : Type
  | noResponse
  | block (blocker : Nat) (block_challenge : Option Nat)
  deriving DecidableEq, Repr

/-- Outcome of a merged response window offering both the challenge and
the block emoji (assassinate, steal). -/
inductive DualWindow : Type
  | noResponse
  | challenge (challenger : Nat)
  | block (blocker : Nat) (block_challenge : Option Nat)
  deriving DecidableEq, Repr

/-- The `await advance_turn(ctx, cur)` call ending a command; the fuel
`|players| + 1` covers every possible chain of departures. -/
def finish_turn (present : Nat → Bool) (t : GameState) (cur : Nat) :
    Option (Option Reject × GameState) :=
  match advance_turn present (t.players.length + 1) t cur with
  | none => none
  | some t2 => some (none, t2)

/-- The `!income` command: +1 coin, never blockable or challengeable. -/
def income (present : Nat → Bool) (s : GameState) (actor : Nat) :
    Option (Option Reject × GameState) :=
  if s.current_player ≠ some actor then some (some Reject.notYourTurn, s)
  else
    match lookupP s.players actor with
    | none => none
    | some da =>
      if 10 ≤ da.coins then some (some Reject.mustCoup, s)
      else
        let s1 : GameState :=
          { s with players := updateP s.players actor (fun d => { d with coins := d.coins + 1 }) }
        finish_turn present s1 actor

/-- The `!foreign_aid` command: +2 coins unless blocked by an (unchallenged
or vindicated) Duke claim. -/
def foreign_aid (shuffle : List Card → List Card) (present : Nat → Bool)
    (s : GameState) (actor : Nat) (resp : BlockWindow) :
    Option (Option Reject × GameState) :=
  if s.current_player ≠ some actor then some (some Reject.notYourTurn, s)
  else
    match lookupP s.players actor with
    | none => none
    | some da =>
      if 10 ≤ da.coins then some (some Reject.mustCoup, s)
      else
        match resp with
        | BlockWindow.noResponse =>
          let s1 : GameState :=
            { s with players := updateP s.players actor (fun d => { d with coins := d.coins + 2 }) }
          finish_turn present s1 actor
        | BlockWindow.block blocker bc =>
          match bc with
          | none => finish_turn present s actor
          | some ch =>
            match handle_challenge shuffle s blocker ch Card.Duke with
            | none => none
            | some (legit, game_ended, _, _, s2) =>
              if game_ended then some (none, s2)
              else if legit then finish_turn present s2 actor
              else
                let s3 : GameState :=
                  { s2 with players := updateP s2.players actor (fun d => { d with coins := d.coins + 2 }) }
                finish_turn present s3 actor

/-- The `!coup <target>` command: pay 7, target loses one influence;
no claim, no response window, and no forced-coup validation. -/
def coup (shuffle : List Card → List Card) (present : Nat → Bool)
    (s : GameState) (actor target : Nat) :
    Option (Option Reject × GameState) :=
  if s.current_player ≠ some actor then some (some Reject.notYourTurn, s)
  else
    match lookupP s.players target with
    | none => some (some Reject.targetNotInGame, s)
    | some dt =>
      if dt.cards.isEmpty then some (some Reject.targetEliminated, s)
      else if actor = target then some (some Reject.selfTarget, s)
      else
        match lookupP s.players actor with
        | none => none
        | some da =>
          if da.coins < 7 then some (some Reject.insufficientCoins, s)
          else
            let s1 : GameState :=
              { s with players := updateP s.players actor (fun d => { d with coins := d.coins - 7 }) }
            match lookupP s1.players target with
            | none => none
            | some dt1 =>
              if 0 < dt1.cards.length then
                match lose_influence s1 target with
                | none => none
                | some (s2, _) =>
                  match handle_player_elimination shuffle s2 target with
                  | none => none
                  | some (_, game_ended, _, s3) =>
                    if game_ended then some (none, s3)
                    else finish_turn present s3 actor
              else finish_turn present s1 actor

/-- The assassination effect after the response phase: if the target is
still in the roster with a card, they lose one influence (with the
elimination / win check); otherwise nothing further happens.  Ends with
the unconditional turn advance of the command. -/
def assassinate_effect (shuffle : List Card → List Card) (present : Nat → Bool)
    (t : GameState) (actor target : Nat) : Option (Option Reject × GameState) :=
  match lookupP t.players target with
  | some dt =>
    if 0 < dt.cards.length then
      match lose_influence t target with
      | none => none
      | some (t2, _) =>
        match handle_player_elimination shuffle t2 target with
        | none => none
        | some (_, game_ended, _, t3) =>
          if game_ended then some (none, t3)
          else finish_turn present t3 actor
    else finish_turn present t actor
  | none => finish_turn present t actor

/-- The `!assassinate <target>` command: validations, then the 3 coins are
deducted up-front (before the response window opens) and never refunded. -/
def assassinate (shuffle : List Card → List Card) (present : Nat → Bool)
    (s : GameState) (actor target : Nat) (resp : DualWindow) :
    Option (Option Reject × GameState) :=
  if s.current_player ≠ some actor then some (some Reject.notYourTurn, s)
  else
    match lookupP s.players target with
    | none => some (some Reject.targetNotInGame, s)
    | some dt =>
      if dt.cards.isEmpty then some (some Reject.targetEliminated, s)
      else if actor = target then some (some Reject.selfTarget, s)
      else
        match lookupP s.players actor with
        | none => none
        | some da =>
          if da.coins < 3 then some (some Reject.insufficientCoins, s)
          else if 10 ≤ da.coins then some (some Reject.mustCoup, s)
          else
            let s1 : GameState :=
              { s with players := updateP s.players actor (fun d => { d with coins := d.coins - 3 }) }
            match resp with
            | DualWindow.challenge ch =>
              match handle_challenge shuffle s1 actor ch Card.Assassin with
              | none => none
              | some (legit, game_ended, elim, nextP, s2) =>
                if game_ended then some (none, s2)
                else if legit then assassinate_effect shuffle present s2 actor target
                else
                  if elim = some actor then
                    match nextP with
                    | none => none
                    | some nx => some (none, { s2 with current_player := some nx })
                  else finish_turn present s2 actor
            | DualWindow.block blocker bc =>
              match bc with
              | none => finish_turn present s1 actor
              | some ch =>
                match handle_challenge shuffle s1 blocker ch Card.Contessa with
                | none => none
                | some (legit, game_ended, _, _, s2) =>
                  if game_ended then some (none, s2)
                  else if legit then finish_turn present s2 actor
                  else assassinate_effect shuffle present s2 actor target
            | DualWindow.noResponse =>
              assassinate_effect shuffle present s1 actor target

/-- The `!tax` command: claim Duke for +3 coins. -/
def tax (shuffle : List Card → List Card) (present : Nat → Bool)
    (s : GameState) (actor : Nat) (resp : ChallengeWindow) :
    Option (Option Reject × GameState) :=
  if s.current_player ≠ some actor then some (some Reject.notYourTurn, s)
  else
    match lookupP s.players actor with
    | none => none
    | some da =>
      if 10 ≤ da.coins then some (some Reject.mustCoup, s)
      else
        match resp with
        | ChallengeWindow.challenge ch =>
          match handle_challenge shuffle s actor ch Card.Duke with
          | none => none
          | some (legit, game_ended, elim, nextP, s2) =>
            if game_ended then some (none, s2)
            else if legit then
              let s3 : GameState :=
                { s2 with players := updateP s2.players actor (fun d => { d with coins := d.coins + 3 }) }
              finish_turn present s3 actor
            else
              if elim = some actor then
                match nextP with
                | none => none
                | some nx => some (none, { s2 with current_player := some nx })
              else finish_turn present s2 actor
        | ChallengeWindow.noResponse =>
          let s1 : GameState :=
            { s with players := updateP s.players actor (fun d => { d with coins := d.coins + 3 }) }
          finish_turn present s1 actor

/-- The successful-steal coin transfer: `stolen_coins = min(2, target.coins)`
moves from target to actor (actor credited first, then target debited,
as in the source).  `none` models a `KeyError`. -/
def steal_transfer (t : GameState) (actor target : Nat) : Option GameState :=
  match lookupP t.players target, lookupP t.players actor with
  | some dt, some _ =>
    let stolen := min 2 dt.coins
    let ps1 := updateP t.players actor (fun d => { d with coins := d.coins + stolen })
    let ps2 := updateP ps1 target (fun d => { d with coins := d.coins - stolen })
    some { t with players := ps2 }
  | _, _ => none

/-- The `!steal <target>` command: claim Captain to transfer
`min(2, target.coins)` coins; rejects outright when the target has no
coins, before any response window opens. -/
def steal (shuffle : List Card → List Card) (present : Nat → Bool)
    (s : GameState) (actor target : Nat) (resp : DualWindow) :
    Option (Option Reject × GameState) :=
  if s.current_player ≠ some actor then some (some Reject.notYourTurn, s)
  else
    match lookupP s.players target with
    | none => some (some Reject.targetNotInGame, s)
    | some dt =>
      if dt.cards.isEmpty then some (some Reject.targetEliminated, s)
      else if actor = target then some (some Reject.selfTarget, s)
      else
        match lookupP s.players actor with
        | none => none
        | some da =>
          if 10 ≤ da.coins then some (some Reject.mustCoup, s)
          else if dt.coins < 1 then some (some Reject.noCoinsToSteal, s)
          else
            match resp with
            | DualWindow.block blocker bc =>
              match bc with
              | none => finish_turn present s actor
              | some ch =>
                match handle_block_challenge shuffle s blocker ch
                    [Card.Captain, Card.Ambassador] with
                | none => none
                | some (legit, game_ended, _, _, s2) =>
                  if game_ended then some (none, s2)
                  else if legit then finish_turn present s2 actor
                  else
                    match lookupP s2.players target with
                    | some dt2 =>
                      if 0 < dt2.cards.length then
                        match steal_transfer s2 actor target with
                        | none => none
                        | some s3 => finish_turn present s3 actor
                      else finish_turn present s2 actor
                    | none => finish_turn present s2 actor
            | DualWindow.challenge ch =>
              match handle_challenge shuffle s actor ch Card.Captain with
              | none => none
              | some (legit, game_ended, elim, nextP, s2) =>
                if game_ended then some (none, s2)
                else if legit then
                  match lookupP s2.players target with
                  | some dt2 =>
                    if 0 < dt2.cards.length then
                      match steal_transfer s2 actor target with
                      | none => none
                      | some s3 => finish_turn present s3 actor
                    else finish_turn present s2 actor
                  | none => finish_turn present s2 actor
                else
                  if elim = some actor then
                    some (none, { s2 with current_player := nextP })
                  else finish_turn present s2 actor
            | DualWindow.noResponse =>
              match lookupP s.players target with
              | some dt2 =>
                if 0 < dt2.cards.length then
                  match steal_transfer s actor target with
                  | none => none
                  | some s3 => finish_turn present s3 actor
                else finish_turn present s actor
              | none => finish_turn present s actor

/-- The index-selection `while` loop of `!exchange`: `picks` is the stream
of reacted card indices; duplicates are skipped; an index outside the pool
(`n ≤ i`) models the `IndexError` crash; an exhausted stream models the
untimed `wait_for` blocking forever.  Returns the selected index list. -/
def select_loop (n k : Nat) : List Nat → List Nat → Option (List Nat)
  | [], acc => if k ≤ acc.length then some acc else none
  | i :: rest, acc =>
    if k ≤ acc.length then some acc
    else if i ∈ acc then select_loop n k rest acc
    else if n ≤ i then none
    else select_loop n k rest (acc ++ [i])

/-- The `!exchange` command: claim Ambassador, draw 2, keep as many cards
as initially held, return the rest to the deck (appended on top).
`rshuffle` is the `random.shuffle` of the drawn pool, `dmOkActor` says
whether the card options could be DMed to the actor (on failure the two
drawn cards are appended back and the turn advances). -/
def exchange (shuffle : List Card → List Card) (rshuffle : List Card → List Card)
    (present : Nat → Bool) (s : GameState) (actor : Nat)
    (resp : ChallengeWindow) (dmOkActor : Bool) (picks : List Nat) :
    Option (Option Reject × GameState) :=
  if s.current_player ≠ some actor then some (some Reject.notYourTurn, s)
  else
    match lookupP s.players actor with
    | none => none
    | some da =>
      if 10 ≤ da.coins then some (some Reject.mustCoup, s)
      else
        let k := da.cards.length
        let proceed : GameState → Option (Option Reject × GameState) := fun t =>
          if t.court_deck.length < 2 then finish_turn present t actor
          else
            match popTop t.court_deck with
            | none => none
            | some (c1, deck1) =>
              match popTop deck1 with
              | none => none
              | some (c2, deck2) =>
                match lookupP t.players actor with
                | none => none
                | some da2 =>
                  let all_cards := rshuffle (da2.cards ++ [c1, c2])
                  if !dmOkActor then
                    finish_turn present { t with court_deck := deck2 ++ [c1, c2] } actor
                  else
                    match select_loop all_cards.length k picks [] with
                    | none => none
                    | some sel =>
                      let chosen := sel.filterMap (fun i => all_cards.get? i)
                      let unchosen :=
                        ((all_cards.enum).filter (fun ic => ic.1 ∉ sel)).map Prod.snd
                      let t2 : GameState :=
                        { t with
                            players := updateP t.players actor (fun d => { d with cards := chosen }),
                            court_deck := deck2 ++ unchosen }
                      finish_turn present t2 actor
        match resp with
        | ChallengeWindow.challenge ch =>
          match handle_challenge shuffle s actor ch Card.Ambassador with
          | none => none
          | some (legit, game_ended, elim, nextP, s2) =>
            if game_ended then some (none, s2)
            else if legit then proceed s2
            else
              if elim = some actor then
                match nextP with
                | none => none
                | some nx => some (none, { s2 with current_player := some nx })
              else finish_turn present s2 actor
        | ChallengeWindow.noResponse => proceed s

/-! ## Concrete example states (used to instantiate the general theorems) -/

/-- An empty table, as `get_game_state` creates it (deck order irrelevant
to the properties below, so the unshuffled fresh deck is used). -/
def table0 : GameState :=
  { players := [], court_deck := freshDeck, discarded_cards := [],
    game_started := false, current_player := none }

/-- A running 2-player game: player 1 to move with 3 coins, player 2 with
2 coins, 11 cards in the deck, empty discard pile. -/
def g2 : GameState :=
  { players := [(1, ⟨[Card.Duke, Card.Assassin], 3⟩),
                (2, ⟨[Card.Contessa, Card.Captain], 2⟩)],
    court_deck := freshDeck.drop 4, discarded_cards := [],
    game_started := true, current_player := some 1 }

/-- `g2` with player 1 holding 11 coins (forced-coup situation). -/
def g2rich : GameState :=
  { g2 with players := [(1, ⟨[Card.Duke, Card.Assassin], 11⟩),
                        (2, ⟨[Card.Contessa, Card.Captain], 2⟩)] }

/-- `g2` with a broke player 2 (no coins to steal). -/
def g2poor : GameState :=
  { g2 with players := [(1, ⟨[Card.Duke, Card.Assassin], 3⟩),
                        (2, ⟨[Card.Contessa, Card.Captain], 0⟩)] }

/-- A running 3-player game with 9 cards in the deck. -/
def g3 : GameState :=
  { players := [(1, ⟨[Card.Duke, Card.Assassin], 3⟩),
                (2, ⟨[Card.Contessa, Card.Captain], 2⟩),
                (3, ⟨[Card.Ambassador, Card.Duke], 2⟩)],
    court_deck := freshDeck.drop 6, discarded_cards := [],
    game_started := true, current_player := some 1 }

/-- A 3-player game in which player 3 has an empty hand (mid-elimination
safety-check situation used by the target-validation theorems). -/
def gElim : GameState :=
  { players := [(1, ⟨[Card.Duke, Card.Assassin], 8⟩),
                (2, ⟨[Card.Contessa, Card.Captain], 2⟩),
                (3, ⟨[], 5⟩)],
    court_deck := freshDeck.drop 6, discarded_cards := [],
    game_started := true, current_player := some 1 }

/-- A 3-player game used for the defeated-block steal scenario: the
blocker (player 3) holds neither Captain nor Ambassador. -/
def gB : GameState :=
  { players := [(1, ⟨[Card.Duke, Card.Assassin], 3⟩),
                (2, ⟨[Card.Contessa, Card.Captain], 2⟩),
                (3, ⟨[Card.Contessa, Card.Duke], 2⟩)],
    court_deck := freshDeck.drop 6, discarded_cards := [],
    game_started := true, current_player := some 1 }

/-- A 3-player game used for the defeated-challenge steal scenario: the
actor (player 1) really holds a Captain. -/
def gC : GameState :=
  { players := [(1, ⟨[Card.Captain, Card.Assassin], 3⟩),
                (2, ⟨[Card.Contessa, Card.Captain], 2⟩),
                (3, ⟨[Card.Contessa, Card.Duke], 2⟩)],
    court_deck := freshDeck.drop 6, discarded_cards := [],
    game_started := true, current_player := some 1 }

/-- The state after an unopposed `steal id allPresent g2 1 2`. -/
def g2afterSteal : GameState :=
  { players := [(1, ⟨[Card.Duke, Card.Assassin], 5⟩),
                (2, ⟨[Card.Contessa, Card.Captain], 0⟩)],
    court_deck := freshDeck.drop 4, discarded_cards := [],
    game_started := true, current_player := some 2 }

/-- The state after `steal id allPresent gB 1 2` with a challenged,
defeated block by player 3. -/
def gBafterSteal : GameState :=
  { players := [(1, ⟨[Card.Duke, Card.Assassin], 5⟩),
                (2, ⟨[Card.Contessa, Card.Captain], 0⟩),
                (3, ⟨[Card.Contessa], 2⟩)],
    court_deck := [Card.Assassin, Card.Contessa, Card.Captain, Card.Ambassador,
                   Card.Duke, Card.Assassin, Card.Contessa, Card.Captain, Card.Ambassador],
    discarded_cards := [Card.Duke],
    game_started := true, current_player := some 2 }

/-- The state after `steal id allPresent gC 1 2` with a direct challenge
by player 3 defeated by the actor's real Captain. -/
def gCafterSteal : GameState :=
  { players := [(1, ⟨[Card.Assassin, Card.Ambassador], 5⟩),
                (2, ⟨[Card.Contessa, Card.Captain], 0⟩),
                (3, ⟨[Card.Contessa], 2⟩)],
    court_deck := [Card.Captain, Card.Assassin, Card.Contessa, Card.Captain,
                   Card.Ambassador, Card.Duke, Card.Assassin, Card.Contessa, Card.Captain],
    discarded_cards := [Card.Duke],
    game_started := true, current_player := some 2 }

/-- "Everybody is still on the platform". -/
def allPresent : Nat → Bool := fun _ => true

/-- "Player 2 has left the platform". -/
def absent2 : Nat → Bool := fun p => p ≠ 2

/-- "Player 3's private channel is unreachable". -/
def dmFail3 : Nat → Bool := fun p => p ≠ 3

/-! ## Association-list lemmas -/

theorem lookupP_updateP_self (ps : Roster) (p : Nat) (f : PlayerData → PlayerData) :
    lookupP (updateP ps p f) p = (lookupP ps p).map f := by
  induction ps with
  | nil => rfl
  | cons hd tl ih =>
    obtain ⟨q, d⟩ := hd
    by_cases hq : q = p
    · simp [updateP, lookupP, hq]
    · simp [updateP, lookupP, hq, ih]

theorem lookupP_updateP_ne (ps : Roster) (p q : Nat) (f : PlayerData → PlayerData)
    (h : q ≠ p) : lookupP (updateP ps p f) q = lookupP ps q := by
  induction ps with
  | nil => rfl
  | cons hd tl ih =>
    obtain ⟨r, d⟩ := hd
    by_cases hr : r = p
    · subst hr
      simp [updateP, lookupP, (Ne.symm h)]
    · by_cases hrq : r = q <;> simp [updateP, lookupP, hr, hrq, ih, h]

theorem lookupP_removeP_ne (ps : Roster) (p q : Nat) (h : q ≠ p) :
    lookupP (removeP ps p) q = lookupP ps q := by
  induction ps with
  | nil => rfl
  | cons hd tl ih =>
    obtain ⟨r, d⟩ := hd
    by_cases hr : r = p
    · subst hr
      simp [removeP, lookupP, (Ne.symm h)]
    · by_cases hrq : r = q <;> simp [removeP, lookupP, hr, hrq, ih, h]

theorem keys_updateP (ps : Roster) (p : Nat) (f : PlayerData → PlayerData) :
    (updateP ps p f).map Prod.fst = ps.map Prod.fst := by
  induction ps with
  | nil => rfl
  | cons hd tl ih =>
    obtain ⟨q, d⟩ := hd
    by_cases hq : q = p <;> simp [updateP, hq, ih]

theorem length_updateP (ps : Roster) (p : Nat) (f : PlayerData → PlayerData) :
    (updateP ps p f).length = ps.length := by
  have := congrArg List.length (keys_updateP ps p f)
  simpa using this

/-- The total number of cards held in a roster (`Σ|hand_i|`). -/
def handSum (ps : Roster) : Nat :=
  (ps.map (fun pd => pd.2.cards.length)).sum

theorem cardSum_def (s : GameState) :
    cardSum s = s.court_deck.length + handSum s.players + s.discarded_cards.length := rfl

theorem handSum_updateP (ps : Roster) (p : Nat) (f : PlayerData → PlayerData)
    (d : PlayerData) (h : lookupP ps p = some d) :
    handSum (updateP ps p f) + d.cards.length = handSum ps + (f d).cards.length := by
  induction ps with
  | nil => simp [lookupP] at h
  | cons hd tl ih =>
    obtain ⟨q, d0⟩ := hd
    by_cases hq : q = p
    · simp only [lookupP, if_pos hq] at h
      injection h with h
      subst h
      simp [updateP, if_pos hq, handSum]
      omega
    · simp only [lookupP, if_neg hq] at h
      have := ih h
      simp [updateP, if_neg hq, handSum] at this ⊢
      omega

theorem handSum_removeP (ps : Roster) (p : Nat) (d : PlayerData)
    (h : lookupP ps p = some d) :
    handSum (removeP ps p) + d.cards.length = handSum ps := by
  induction ps with
  | nil => simp [lookupP] at h
  | cons hd tl ih =>
    obtain ⟨q, d0⟩ := hd
    by_cases hq : q = p
    · simp only [lookupP, if_pos hq] at h
      injection h with h
      subst h
      simp [removeP, if_pos hq, handSum]
      omega
    · simp only [lookupP, if_neg hq] at h
      have := ih h
      simp [removeP, if_neg hq, handSum] at this ⊢
      omega

theorem freshDeck_length : freshDeck.length = 15 := rfl

/-! ## Frame and conservation lemmas for the elementary operations -/

/-- The coin balance a state assigns to `q` (`players[q]["coins"]`). -/
def coinsOf (s : GameState) (q : Nat) : Option Int :=
  (lookupP s.players q).map PlayerData.coins

theorem lose_influence_cardSum (s : GameState) (p : Nat) (s' : GameState)
    (c : Option Card) (h : lose_influence s p = some (s', c)) :
    cardSum s' = cardSum s := by
  unfold lose_influence at h
  cases hl : lookupP s.players p with
  | none => simp [hl] at h
  | some d =>
    simp only [hl] at h
    cases hg : d.cards.getLast? with
    | none =>
      simp only [hg] at h
      simp at h
      rw [← h.1]
    | some lost =>
      simp only [hg] at h
      simp at h
      have hne : d.cards ≠ [] := by
        intro he; rw [he] at hg; simp at hg
      have hlen : 1 ≤ d.cards.length := List.length_pos.mpr hne
      have hupd := handSum_updateP s.players p
        (fun d0 => { d0 with cards := d0.cards.dropLast }) d hl
      simp [List.length_dropLast] at hupd
      rw [← h.1]
      simp [cardSum_def]
      omega

theorem lose_influence_frame (s : GameState) (p : Nat) (s' : GameState)
    (c : Option Card) (h : lose_influence s p = some (s', c)) :
    s'.court_deck = s.court_deck ∧ s'.game_started = s.game_started ∧
      s'.current_player = s.current_player ∧
      (∀ q, coinsOf s' q = coinsOf s q) ∧
      (∀ q, q ≠ p → lookupP s'.players q = lookupP s.players q) := by
  unfold lose_influence at h
  cases hl : lookupP s.players p with
  | none => simp [hl] at h
  | some d =>
    simp only [hl] at h
    cases hg : d.cards.getLast? with
    | none =>
      simp only [hg] at h
      simp at h
      rw [← h.1]
      exact ⟨rfl, rfl, rfl, fun q => rfl, fun q _ => rfl⟩
    | some lost =>
      simp only [hg] at h
      simp at h
      rw [← h.1]
      refine ⟨rfl, rfl, rfl, fun q => ?_, fun q hq => ?_⟩
      · unfold coinsOf
        by_cases hq : q = p
        · subst hq
          simp [lookupP_updateP_self, hl]
        · simp [lookupP_updateP_ne _ _ _ _ hq]
      · simp [lookupP_updateP_ne _ _ _ _ hq]

theorem popTop_some (l : List Card) (hne : l ≠ []) :
    ∃ c l2, popTop l = some (c, l2) ∧ l2.length + 1 = l.length := by
  unfold popTop
  cases hg : l.getLast? with
  | none => exact absurd (List.getLast?_eq_none_iff.mp hg) hne
  | some c =>
    refine ⟨c, l.dropLast, rfl, ?_⟩
    have : 1 ≤ l.length := List.length_pos.mpr hne
    simp [List.length_dropLast]
    omega

theorem card_swap_cardSum (s : GameState) (p : Nat) (c : Card) :
    cardSum (handle_card_swap s p c) = cardSum s := by
  unfold handle_card_swap
  by_cases hd : s.court_deck.length < 1
  · simp [hd]
  · simp only [if_neg hd]
    cases hl : lookupP s.players p with
    | none => rfl
    | some d =>
      simp only []
      by_cases hc : c ∈ d.cards
      · obtain ⟨drawn, deck2, hp, hdl⟩ := popTop_some (c :: s.court_deck) (by simp)
        simp only [if_pos hc, hp]
        have hcl : 1 ≤ d.cards.length :=
          List.length_pos.mpr (by intro he; rw [he] at hc; simp at hc)
        have herase : (d.cards.erase c).length + 1 = d.cards.length :=
          List.length_erase_add_one hc
        have hupd := handSum_updateP s.players p
          (fun d0 => { d0 with cards := d0.cards.erase c ++ [drawn] }) d hl
        simp at hupd
        simp at hdl
        simp [cardSum_def]
        omega
      · simp [hc]

theorem card_swap_frame (s : GameState) (p : Nat) (c : Card) :
    (handle_card_swap s p c).game_started = s.game_started ∧
      (handle_card_swap s p c).current_player = s.current_player ∧
      (handle_card_swap s p c).discarded_cards = s.discarded_cards ∧
      (handle_card_swap s p c).court_deck.length = s.court_deck.length ∧
      (∀ q, coinsOf (handle_card_swap s p c) q = coinsOf s q) ∧
      (∀ q, q ≠ p → lookupP (handle_card_swap s p c).players q = lookupP s.players q) := by
  unfold handle_card_swap
  by_cases hd : s.court_deck.length < 1
  · simp [hd, coinsOf]
  · simp only [if_neg hd]
    cases hl : lookupP s.players p with
    | none => simp [coinsOf]
    | some d =>
      simp only []
      by_cases hc : c ∈ d.cards
      · obtain ⟨drawn, deck2, hp, hdl⟩ := popTop_some (c :: s.court_deck) (by simp)
        simp only [if_pos hc, hp]
        refine ⟨by trivial, by trivial, by trivial, by simp at hdl; simp [hdl], fun q => ?_, fun q hq => ?_⟩
        · unfold coinsOf
          by_cases hq : q = p
          · subst hq
            simp [lookupP_updateP_self, hl]
          · simp [lookupP_updateP_ne _ _ _ _ hq]
        · simp [lookupP_updateP_ne _ _ _ _ hq]
      · simp [hc, coinsOf]

theorem isSome_lookupP_updateP (ps : Roster) (p q : Nat) (f : PlayerData → PlayerData) :
    (lookupP (updateP ps p f) q).isSome = (lookupP ps q).isSome := by
  by_cases hq : q = p
  · subst hq
    rw [lookupP_updateP_self]
    cases lookupP ps q <;> rfl
  · rw [lookupP_updateP_ne _ _ _ _ hq]

/-- Explicit run of `lose_influence` on a player holding at least one card. -/
theorem lose_influence_run (s : GameState) (p : Nat) (d : PlayerData) (lost : Card)
    (hl : lookupP s.players p = some d) (hg : d.cards.getLast? = some lost) :
    lose_influence s p =
      some ({ s with
                players := updateP s.players p (fun d0 => { d0 with cards := d0.cards.dropLast }),
                discarded_cards := s.discarded_cards ++ [lost] }, some lost) := by
  unfold lose_influence
  simp only [hl, hg]

/-- `handle_player_elimination` on a player still holding cards: no change. -/
theorem elimination_alive (shuffle : List Card → List Card) (s : GameState)
    (p : Nat) (d : PlayerData) (hl : lookupP s.players p = some d)
    (hne : d.cards ≠ []) :
    handle_player_elimination shuffle s p = some (false, false, none, s) := by
  unfold handle_player_elimination
  simp only [hl]
  simp [List.isEmpty_iff, hne]

/-- `handle_player_elimination` on an empty-handed player when removal does
not end the game: the player is deleted, nothing else changes. -/
theorem elimination_no_win (shuffle : List Card → List Card) (s : GameState)
    (p : Nat) (d : PlayerData) (nxt : Nat) (hl : lookupP s.players p = some d)
    (he : d.cards = []) (hn : get_next_player s p = some nxt)
    (hw : check_win_condition { s with players := removeP s.players p } = none) :
    handle_player_elimination shuffle s p =
      some (true, false, some nxt, { s with players := removeP s.players p }) := by
  unfold handle_player_elimination
  simp only [hl, he, hn, hw]
  simp

/-- `handle_player_elimination` on an empty-handed player when removal does
end the game: full table reset with a fresh shuffled deck. -/
theorem elimination_win (shuffle : List Card → List Card) (s : GameState)
    (p : Nat) (d : PlayerData) (nxt w : Nat) (hl : lookupP s.players p = some d)
    (he : d.cards = []) (hn : get_next_player s p = some nxt)
    (hw : check_win_condition { s with players := removeP s.players p } = some w) :
    handle_player_elimination shuffle s p =
      some (true, true, none,
        { players := [], court_deck := shuffle freshDeck, discarded_cards := [],
          game_started := false, current_player := none }) := by
  unfold handle_player_elimination
  simp only [hl, he, hn, hw]
  simp

/-- Any completed `handle_player_elimination` preserves the 15-card
conservation invariant (the win-path reset restores it exactly). -/
theorem elimination_cardSum (shuffle : List Card → List Card) (s : GameState)
    (p : Nat) (r : Bool × Bool × Option Nat × GameState)
    (hperm : ∀ l, (shuffle l).Perm l)
    (h : handle_player_elimination shuffle s p = some r)
    (hsum : cardSum s = 15) : cardSum r.2.2.2 = 15 := by
  unfold handle_player_elimination at h
  cases hl : lookupP s.players p with
  | none => simp [hl] at h
  | some d =>
    simp only [hl] at h
    by_cases he : d.cards.isEmpty
    · simp only [he, if_pos] at h
      cases hn : get_next_player s p with
      | none => simp [hn] at h
      | some nxt =>
        simp only [hn] at h
        have hrem := handSum_removeP s.players p d hl
        have hlen : d.cards.length = 0 := by
          rw [List.isEmpty_iff] at he; simp [he]
        cases hw : check_win_condition { s with players := removeP s.players p } with
        | some w =>
          simp only [hw] at h
          simp at h
          rw [← h]
          simp [cardSum_def, handSum]
          exact (hperm freshDeck).length_eq.trans freshDeck_length
        | none =>
          simp only [hw] at h
          simp at h
          rw [← h]
          simp [cardSum_def] at hsum ⊢
          omega
    · simp only [he, if_neg, Bool.false_eq_true] at h
      simp at h
      rw [← h]
      exact hsum

/-- One step of `advance_turn` when the scheduled next player is still on
the platform: only the current-player pointer changes. -/
theorem advance_turn_present (present : Nat → Bool) (fuel : Nat) (s : GameState)
    (cur nxt : Nat) (hcur : (lookupP s.players cur).isSome)
    (hn : get_next_player s cur = some nxt) (hp : present nxt = true) :
    advance_turn present (fuel + 1) s cur = some { s with current_player := some nxt } := by
  unfold advance_turn
  simp only [hcur, if_pos, hn, hp, if_true]

/-- `finish_turn` under the same conditions. -/
theorem finish_turn_present (present : Nat → Bool) (s : GameState)
    (cur nxt : Nat) (hcur : (lookupP s.players cur).isSome)
    (hn : get_next_player s cur = some nxt) (hp : present nxt = true) :
    finish_turn present s cur = some (none, { s with current_player := some nxt }) := by
  unfold finish_turn
  rw [advance_turn_present present s.players.length s cur nxt hcur hn hp]

theorem coins_lookupP_updateP (ps : Roster) (p q : Nat) (f : PlayerData → PlayerData)
    (hf : ∀ d, (f d).coins = d.coins) :
    (lookupP (updateP ps p f) q).map PlayerData.coins
      = (lookupP ps q).map PlayerData.coins := by
  by_cases hq : q = p
  · subst hq
    rw [lookupP_updateP_self]
    cases lookupP ps q with
    | none => rfl
    | some d => simp [hf d]
  · rw [lookupP_updateP_ne _ _ _ _ hq]

theorem card_swap_isSome (s : GameState) (p : Nat) (c : Card) (q : Nat) :
    (lookupP (handle_card_swap s p c).players q).isSome
      = (lookupP s.players q).isSome := by
  unfold handle_card_swap
  by_cases hd : s.court_deck.length < 1
  · simp [hd]
  · simp only [if_neg hd]
    cases hl : lookupP s.players p with
    | none => rfl
    | some d =>
      simp only []
      by_cases hc : c ∈ d.cards
      · obtain ⟨drawn, deck2, hp, _⟩ := popTop_some (c :: s.court_deck) (by simp)
        simp only [if_pos hc, hp]
        exact isSome_lookupP_updateP s.players p q _
      · simp [hc]

/-- A challenge of a claim the claimer can prove, where the challenger
still holds two cards: the claim is upheld, the game does not end, the
challenger loses one influence, and no coin balance moves. -/
theorem handle_challenge_upheld (shuffle : List Card → List Card) (s : GameState)
    (claimer challenger : Nat) (required : Card) (dc dch : PlayerData)
    (hl : lookupP s.players claimer = some dc) (hc : required ∈ dc.cards)
    (hne : challenger ≠ claimer) (hch : lookupP s.players challenger = some dch)
    (hlen : dch.cards.length = 2) :
    ∃ s2, handle_challenge shuffle s claimer challenger required
        = some (true, false, none, none, s2) ∧
      s2.game_started = s.game_started ∧
      s2.current_player = s.current_player ∧
      (∀ q, coinsOf s2 q = coinsOf s q) ∧
      (∀ q, (lookupP s2.players q).isSome = (lookupP s.players q).isSome) ∧
      (∀ q, q ≠ claimer → q ≠ challenger → lookupP s2.players q = lookupP s.players q) ∧
      cardSum s2 = cardSum s := by
  unfold handle_challenge
  simp only [hl, if_pos hc]
  obtain ⟨hg1, hcp1, hdis1, hdl1, hcoins1, hlk1⟩ := card_swap_frame s claimer required
  have hch1 : lookupP (handle_card_swap s claimer required).players challenger = some dch := by
    rw [hlk1 challenger hne]; exact hch
  simp only [hch1]
  have hpos : 0 < dch.cards.length := by omega
  simp only [if_pos hpos]
  have hnil : dch.cards ≠ [] := by
    intro he; rw [he] at hlen; simp at hlen
  cases hgl : dch.cards.getLast? with
  | none => exact absurd (List.getLast?_eq_none_iff.mp hgl) hnil
  | some lost =>
    rw [lose_influence_run _ challenger dch lost hch1 hgl]
    simp only []
    set s1 := handle_card_swap s claimer required with hs1
    set s2 : GameState :=
      { s1 with
          players := updateP s1.players challenger
            (fun d0 => { d0 with cards := d0.cards.dropLast }),
          discarded_cards := s1.discarded_cards ++ [lost] } with hs2
    have hch2 : lookupP s2.players challenger
        = some { dch with cards := dch.cards.dropLast } := by
      show lookupP (updateP s1.players challenger _) challenger = _
      rw [lookupP_updateP_self, hch1]
      rfl
    have hnil2 : ({ dch with cards := dch.cards.dropLast } : PlayerData).cards ≠ [] := by
      simp only []
      intro he
      have := congrArg List.length he
      simp [List.length_dropLast, hlen] at this
    rw [elimination_alive shuffle s2 challenger _ hch2 hnil2]
    refine ⟨s2, rfl, hg1, hcp1, fun q => ?_, fun q => ?_, fun q hq1 hq2 => ?_, ?_⟩
    · show (lookupP (updateP s1.players challenger
          (fun d0 => { d0 with cards := d0.cards.dropLast })) q).map PlayerData.coins = _
      rw [coins_lookupP_updateP s1.players challenger q
        (fun d0 => { d0 with cards := d0.cards.dropLast }) (fun d => rfl)]
      exact hcoins1 q
    · show (lookupP (updateP s1.players challenger
          (fun d0 => { d0 with cards := d0.cards.dropLast })) q).isSome = _
      rw [isSome_lookupP_updateP]
      exact card_swap_isSome s claimer required q
    · show lookupP (updateP s1.players challenger
          (fun d0 => { d0 with cards := d0.cards.dropLast })) q = _
      rw [lookupP_updateP_ne _ _ _ _ hq2]
      exact hlk1 q hq1
    · have hrun := lose_influence_run s1 challenger dch lost hch1 hgl
      have := lose_influence_cardSum s1 challenger s2 (some lost) hrun
      rw [this]
      exact card_swap_cardSum s claimer required

/-- A challenge of a claim the claimer cannot prove, where the claimer
still holds two cards: the claim is defeated, the game does not end, the
claimer loses one influence, and no coin balance moves; every other
player's entry is untouched. -/
theorem handle_challenge_defeated (shuffle : List Card → List Card) (s : GameState)
    (claimer challenger : Nat) (required : Card) (dc : PlayerData)
    (hl : lookupP s.players claimer = some dc) (hc : required ∉ dc.cards)
    (hlen : dc.cards.length = 2) :
    ∃ s2, handle_challenge shuffle s claimer challenger required
        = some (false, false, none, none, s2) ∧
      s2.game_started = s.game_started ∧
      s2.current_player = s.current_player ∧
      (∀ q, coinsOf s2 q = coinsOf s q) ∧
      (∀ q, (lookupP s2.players q).isSome = (lookupP s.players q).isSome) ∧
      (∀ q, q ≠ claimer → lookupP s2.players q = lookupP s.players q) ∧
      cardSum s2 = cardSum s := by
  unfold handle_challenge
  simp only [hl, if_neg hc]
  have hpos : 0 < dc.cards.length := by omega
  simp only [if_pos hpos]
  have hnil : dc.cards ≠ [] := by
    intro he; rw [he] at hlen; simp at hlen
  cases hgl : dc.cards.getLast? with
  | none => exact absurd (List.getLast?_eq_none_iff.mp hgl) hnil
  | some lost =>
    rw [lose_influence_run s claimer dc lost hl hgl]
    simp only []
    set s2 : GameState :=
      { s with
          players := updateP s.players claimer
            (fun d0 => { d0 with cards := d0.cards.dropLast }),
          discarded_cards := s.discarded_cards ++ [lost] } with hs2
    have hcl2 : lookupP s2.players claimer
        = some { dc with cards := dc.cards.dropLast } := by
      show lookupP (updateP s.players claimer _) claimer = _
      rw [lookupP_updateP_self, hl]
      rfl
    have hnil2 : ({ dc with cards := dc.cards.dropLast } : PlayerData).cards ≠ [] := by
      simp only []
      intro he
      have := congrArg List.length he
      simp [List.length_dropLast, hlen] at this
    rw [elimination_alive shuffle s2 claimer _ hcl2 hnil2]
    refine ⟨s2, rfl, rfl, rfl, fun q => ?_, fun q => ?_, fun q hq => ?_, ?_⟩
    · show (lookupP (updateP s.players claimer
          (fun d0 => { d0 with cards := d0.cards.dropLast })) q).map PlayerData.coins = _
      rw [coins_lookupP_updateP s.players claimer q
        (fun d0 => { d0 with cards := d0.cards.dropLast }) (fun d => rfl)]
      rfl
    · show (lookupP (updateP s.players claimer
          (fun d0 => { d0 with cards := d0.cards.dropLast })) q).isSome = _
      rw [isSome_lookupP_updateP]
    · show lookupP (updateP s.players claimer
          (fun d0 => { d0 with cards := d0.cards.dropLast })) q = _
      rw [lookupP_updateP_ne _ _ _ _ hq]
    · exact lose_influence_cardSum s claimer s2 (some lost)
        (lose_influence_run s claimer dc lost hl hgl)

/-- A challenged block whose blocker holds none of the valid block cards,
the blocker still holding two cards: the block claim is defeated, the
blocker loses one influence, no coin balance moves. -/
theorem handle_block_challenge_defeated (shuffle : List Card → List Card)
    (s : GameState) (blocker challenger : Nat) (valid_cards : List Card)
    (db : PlayerData) (hl : lookupP s.players blocker = some db)
    (hc : ∀ v ∈ valid_cards, v ∉ db.cards) (hlen : db.cards.length = 2) :
    ∃ s2, handle_block_challenge shuffle s blocker challenger valid_cards
        = some (false, false, none, none, s2) ∧
      s2.game_started = s.game_started ∧
      s2.current_player = s.current_player ∧
      (∀ q, coinsOf s2 q = coinsOf s q) ∧
      (∀ q, (lookupP s2.players q).isSome = (lookupP s.players q).isSome) ∧
      (∀ q, q ≠ blocker → lookupP s2.players q = lookupP s.players q) ∧
      cardSum s2 = cardSum s := by
  unfold handle_block_challenge
  simp only [hl]
  have hfind : valid_cards.find? (fun c => decide (c ∈ db.cards)) = none := by
    rw [List.find?_eq_none]
    intro x hx
    simp [hc x hx]
  rw [hfind]
  have hpos : 0 < db.cards.length := by omega
  simp only [if_pos hpos]
  have hnil : db.cards ≠ [] := by
    intro he; rw [he] at hlen; simp at hlen
  cases hgl : db.cards.getLast? with
  | none => exact absurd (List.getLast?_eq_none_iff.mp hgl) hnil
  | some lost =>
    rw [lose_influence_run s blocker db lost hl hgl]
    simp only []
    set s2 : GameState :=
      { s with
          players := updateP s.players blocker
            (fun d0 => { d0 with cards := d0.cards.dropLast }),
          discarded_cards := s.discarded_cards ++ [lost] } with hs2
    have hcl2 : lookupP s2.players blocker
        = some { db with cards := db.cards.dropLast } := by
      show lookupP (updateP s.players blocker _) blocker = _
      rw [lookupP_updateP_self, hl]
      rfl
    have hnil2 : ({ db with cards := db.cards.dropLast } : PlayerData).cards ≠ [] := by
      simp only []
      intro he
      have := congrArg List.length he
      simp [List.length_dropLast, hlen] at this
    rw [elimination_alive shuffle s2 blocker _ hcl2 hnil2]
    refine ⟨s2, rfl, rfl, rfl, fun q => ?_, fun q => ?_, fun q hq => ?_, ?_⟩
    · show (lookupP (updateP s.players blocker
          (fun d0 => { d0 with cards := d0.cards.dropLast })) q).map PlayerData.coins = _
      rw [coins_lookupP_updateP s.players blocker q
        (fun d0 => { d0 with cards := d0.cards.dropLast }) (fun d => rfl)]
      rfl
    · show (lookupP (updateP s.players blocker
          (fun d0 => { d0 with cards := d0.cards.dropLast })) q).isSome = _
      rw [isSome_lookupP_updateP]
    · show lookupP (updateP s.players blocker
          (fun d0 => { d0 with cards := d0.cards.dropLast })) q = _
      rw [lookupP_updateP_ne _ _ _ _ hq]
    · exact lose_influence_cardSum s blocker s2 (some lost)
        (lose_influence_run s blocker db lost hl hgl)

/-- Whatever else happens downstream, the upheld/defeated verdict of a
single-card challenge is exactly membership of the required card in the
claimer's hand. -/
theorem challenge_outcome (shuffle : List Card → List Card) (s : GameState)
    (claimer challenger : Nat) (required : Card)
    (r : Bool × Bool × Option Nat × Option Nat × GameState) (dc : PlayerData)
    (hl : lookupP s.players claimer = some dc)
    (h : handle_challenge shuffle s claimer challenger required = some r) :
    (r.1 = true ↔ required ∈ dc.cards) := by
  unfold handle_challenge at h
  simp only [hl] at h
  by_cases hc : required ∈ dc.cards
  · simp only [if_pos hc] at h
    simp only [hc, iff_true]
    repeat' split at h
    all_goals (try exact Option.noConfusion h)
    all_goals (injection h with h; rw [← h])
  · simp only [if_neg hc] at h
    simp only [hc, iff_false]
    repeat' split at h
    all_goals (try exact Option.noConfusion h)
    all_goals (injection h with h; rw [← h]; simp)

/-- The verdict of a block challenge is exactly non-empty intersection of
the valid block cards with the blocker's hand. -/
theorem block_challenge_outcome (shuffle : List Card → List Card) (s : GameState)
    (blocker challenger : Nat) (valid_cards : List Card)
    (r : Bool × Bool × Option Nat × Option Nat × GameState) (db : PlayerData)
    (hl : lookupP s.players blocker = some db)
    (h : handle_block_challenge shuffle s blocker challenger valid_cards = some r) :
    (r.1 = true ↔ ∃ v ∈ valid_cards, v ∈ db.cards) := by
  unfold handle_block_challenge at h
  simp only [hl] at h
  cases hf : valid_cards.find? (fun c => decide (c ∈ db.cards)) with
  | some found =>
    have hmem := List.mem_of_find?_eq_some hf
    have hfound : found ∈ db.cards := by simpa using List.find?_some hf
    simp only [hf] at h
    have hr : r.1 = true := by
      repeat' split at h
      all_goals (try exact Option.noConfusion h)
      all_goals (injection h with h; rw [← h])
    simp only [hr, true_iff]
    exact ⟨found, hmem, hfound⟩
  | none =>
    have hnone := List.find?_eq_none.mp hf
    simp only [hf] at h
    have hr : r.1 = false := by
      repeat' split at h
      all_goals (try exact Option.noConfusion h)
      all_goals (injection h with h; rw [← h])
    simp only [hr]
    constructor
    · intro hfalse; exact absurd hfalse (by simp)
    · rintro ⟨v, hv, hvm⟩
      have := hnone v hv
      simp at this
      exact absurd hvm this

/-- Every completed `finish_turn` reports no rejection. -/
theorem finish_turn_no_reject (present : Nat → Bool) (t : GameState) (cur : Nat)
    (r : Option Reject) (t2 : GameState)
    (h : finish_turn present t cur = some (r, t2)) : r = none := by
  unfold finish_turn at h
  split at h
  · exact Option.noConfusion h
  · injection h with h
    injection h with h1 h2
    exact h1.symm

/-! ## Claim theorems -/

/-- C5: Challenge outcome determinism — the upheld/defeated verdict of a
single-card challenge is exactly membership of the required card in the
claimer's hand, and the verdict of a block challenge is exactly non-empty
intersection of the valid block cards with the blocker's hand; the verdict
is independent of the shuffle (the only source of randomness). -/
theorem claim5_challenge_outcome_determinism :
    (∀ (shuffle : List Card → List Card) (s : GameState)
        (claimer challenger : Nat) (required : Card)
        (r : Bool × Bool × Option Nat × Option Nat × GameState) (dc : PlayerData),
        lookupP s.players claimer = some dc →
        handle_challenge shuffle s claimer challenger required = some r →
        (r.1 = true ↔ required ∈ dc.cards)) ∧
    (∀ (shuffle : List Card → List Card) (s : GameState)
        (blocker challenger : Nat) (valid_cards : List Card)
        (r : Bool × Bool × Option Nat × Option Nat × GameState) (db : PlayerData),
        lookupP s.players blocker = some db →
        handle_block_challenge shuffle s blocker challenger valid_cards = some r →
        (r.1 = true ↔ ∃ v ∈ valid_cards, v ∈ db.cards)) :=
  ⟨fun sh s cl ch rq r dc hl h => challenge_outcome sh s cl ch rq r dc hl h,
   fun sh s bl ch vc r db hl h => block_challenge_outcome sh s bl ch vc r db hl h⟩

theorem claim5_witness :
    ((true : Bool) = true ↔ Card.Duke ∈ [Card.Duke, Card.Assassin]) ∧
    ((true : Bool) = true ↔ ∃ v ∈ [Card.Captain, Card.Ambassador],
        v ∈ [Card.Contessa, Card.Captain]) :=
  ⟨claim5_challenge_outcome_determinism.1 id g2 1 2 Card.Duke _ _ rfl rfl,
   claim5_challenge_outcome_determinism.2 id g2 2 1 [Card.Captain, Card.Ambassador] _ _ rfl rfl⟩

/-- C7: Card-swap neutrality — for a player who holds the revealed card and
a non-empty deck, `handle_card_swap` leaves the deck size and the hand size
unchanged, and the resulting hand is the old hand minus one occurrence of
the revealed card plus the single redrawn card (every other card kept). -/
theorem claim7_card_swap_neutral (s : GameState) (p : Nat) (c : Card)
    (d : PlayerData) (hl : lookupP s.players p = some d) (hc : c ∈ d.cards)
    (hd : s.court_deck ≠ []) :
    (handle_card_swap s p c).court_deck.length = s.court_deck.length ∧
    ∃ d2, lookupP (handle_card_swap s p c).players p = some d2 ∧
      d2.cards.length = d.cards.length ∧
      ∃ drawn, d2.cards = d.cards.erase c ++ [drawn] := by
  obtain ⟨-, -, -, hdl, -, -⟩ := card_swap_frame s p c
  refine ⟨hdl, ?_⟩
  unfold handle_card_swap
  have hdlen : ¬s.court_deck.length < 1 := by
    have := List.length_pos.mpr hd
    omega
  simp only [if_neg hdlen, hl, if_pos hc]
  obtain ⟨drawn, deck2, hp, _⟩ := popTop_some (c :: s.court_deck) (by simp)
  simp only [hp]
  refine ⟨{ d with cards := d.cards.erase c ++ [drawn] }, ?_, ?_, drawn, rfl⟩
  · show lookupP (updateP s.players p
        (fun d0 => { d0 with cards := d0.cards.erase c ++ [drawn] })) p = _
    rw [lookupP_updateP_self, hl]
    rfl
  · have := List.length_erase_add_one hc
    simp
    omega

theorem claim7_witness :
    lookupP g2.players 1 = some ⟨[Card.Duke, Card.Assassin], 3⟩ ∧
    Card.Duke ∈ [Card.Duke, Card.Assassin] ∧ g2.court_deck ≠ [] ∧
    ((handle_card_swap g2 1 Card.Duke).court_deck.length = g2.court_deck.length ∧
      ∃ d2, lookupP (handle_card_swap g2 1 Card.Duke).players 1 = some d2 ∧
        d2.cards.length = ([Card.Duke, Card.Assassin] : List Card).length ∧
        ∃ drawn, d2.cards = ([Card.Duke, Card.Assassin] : List Card).erase Card.Duke ++ [drawn]) :=
  ⟨by decide, by decide, by decide,
   claim7_card_swap_neutral g2 1 Card.Duke ⟨[Card.Duke, Card.Assassin], 3⟩
     (by decide) (by decide) (by decide)⟩

/-- C10: the steal command rejects with the no-coins-to-steal reason when
the target's balance is below 1, before any state mutation and regardless
of what any response window would have produced (none is opened). -/
theorem claim10_steal_rejects_broke_target (shuffle : List Card → List Card)
    (present : Nat → Bool) (s : GameState) (actor target : Nat)
    (dt da : PlayerData) (resp : DualWindow)
    (hturn : s.current_player = some actor)
    (ht : lookupP s.players target = some dt) (hcards : dt.cards ≠ [])
    (hne : actor ≠ target) (ha : lookupP s.players actor = some da)
    (hcoins : da.coins < 10) (hpoor : dt.coins < 1) :
    steal shuffle present s actor target resp = some (some Reject.noCoinsToSteal, s) := by
  unfold steal
  simp only [hturn, ht, ha]
  rw [if_neg (by simp)]
  rw [if_neg (by simp [List.isEmpty_iff, hcards])]
  rw [if_neg hne]
  rw [if_neg (by omega)]
  rw [if_pos hpoor]

theorem claim10_witness :
    steal id allPresent g2poor 1 2 DualWindow.noResponse
      = some (some Reject.noCoinsToSteal, g2poor) :=
  claim10_steal_rejects_broke_target id allPresent g2poor 1 2
    ⟨[Card.Contessa, Card.Captain], 0⟩ ⟨[Card.Duke, Card.Assassin], 3⟩
    DualWindow.noResponse rfl rfl (by decide) (by decide) rfl (by decide) (by decide)

/-- C4: Forced coup — a current player holding at least 10 coins has
income, foreign aid, tax, assassinate, steal and exchange all rejected
with the must-coup reason and the state unchanged (for the targeted
actions, with an otherwise valid target), while a coup from them is never
rejected: any completed coup reports no rejection. -/
theorem claim4_forced_coup :
    (∀ (present : Nat → Bool) (s : GameState) (actor : Nat) (da : PlayerData),
        s.current_player = some actor → lookupP s.players actor = some da →
        10 ≤ da.coins → income present s actor = some (some Reject.mustCoup, s)) ∧
    (∀ (shuffle : List Card → List Card) (present : Nat → Bool) (s : GameState)
        (actor : Nat) (da : PlayerData) (resp : BlockWindow),
        s.current_player = some actor → lookupP s.players actor = some da →
        10 ≤ da.coins → foreign_aid shuffle present s actor resp
          = some (some Reject.mustCoup, s)) ∧
    (∀ (shuffle : List Card → List Card) (present : Nat → Bool) (s : GameState)
        (actor : Nat) (da : PlayerData) (resp : ChallengeWindow),
        s.current_player = some actor → lookupP s.players actor = some da →
        10 ≤ da.coins → tax shuffle present s actor resp
          = some (some Reject.mustCoup, s)) ∧
    (∀ (shuffle rshuffle : List Card → List Card) (present : Nat → Bool)
        (s : GameState) (actor : Nat) (da : PlayerData) (resp : ChallengeWindow)
        (dmOkActor : Bool) (picks : List Nat),
        s.current_player = some actor → lookupP s.players actor = some da →
        10 ≤ da.coins → exchange shuffle rshuffle present s actor resp dmOkActor picks
          = some (some Reject.mustCoup, s)) ∧
    (∀ (shuffle : List Card → List Card) (present : Nat → Bool) (s : GameState)
        (actor target : Nat) (dt da : PlayerData) (resp : DualWindow),
        s.current_player = some actor → lookupP s.players target = some dt →
        dt.cards ≠ [] → actor ≠ target → lookupP s.players actor = some da →
        10 ≤ da.coins → assassinate shuffle present s actor target resp
          = some (some Reject.mustCoup, s)) ∧
    (∀ (shuffle : List Card → List Card) (present : Nat → Bool) (s : GameState)
        (actor target : Nat) (dt da : PlayerData) (resp : DualWindow),
        s.current_player = some actor → lookupP s.players target = some dt →
        dt.cards ≠ [] → actor ≠ target → lookupP s.players actor = some da →
        10 ≤ da.coins → steal shuffle present s actor target resp
          = some (some Reject.mustCoup, s)) ∧
    (∀ (shuffle : List Card → List Card) (present : Nat → Bool) (s : GameState)
        (actor target : Nat) (dt da : PlayerData) (r : Option Reject) (s2 : GameState),
        s.current_player = some actor → lookupP s.players target = some dt →
        dt.cards ≠ [] → actor ≠ target → lookupP s.players actor = some da →
        10 ≤ da.coins → coup shuffle present s actor target = some (r, s2) →
        r = none) := by
  refine ⟨?_, ?_, ?_, ?_, ?_, ?_, ?_⟩
  · intro present s actor da hturn ha hrich
    unfold income
    simp only [hturn, ha]
    rw [if_neg (by simp)]
    rw [if_pos hrich]
  · intro sh present s actor da resp hturn ha hrich
    unfold foreign_aid
    simp only [hturn, ha]
    rw [if_neg (by simp)]
    rw [if_pos hrich]
  · intro sh present s actor da resp hturn ha hrich
    unfold tax
    simp only [hturn, ha]
    rw [if_neg (by simp)]
    rw [if_pos hrich]
  · intro sh rsh present s actor da resp dmOk picks hturn ha hrich
    unfold exchange
    simp only [hturn, ha]
    rw [if_neg (by simp)]
    rw [if_pos hrich]
  · intro sh present s actor target dt da resp hturn ht htc hne ha hrich
    unfold assassinate
    simp only [hturn, ht, ha]
    rw [if_neg (by simp)]
    rw [if_neg (by simp [List.isEmpty_iff, htc])]
    rw [if_neg hne]
    rw [if_neg (by omega)]
    rw [if_pos hrich]
  · intro sh present s actor target dt da resp hturn ht htc hne ha hrich
    unfold steal
    simp only [hturn, ht, ha]
    rw [if_neg (by simp)]
    rw [if_neg (by simp [List.isEmpty_iff, htc])]
    rw [if_neg hne]
    rw [if_pos hrich]
  · intro sh present s actor target dt da r s2 hturn ht htc hne ha hrich h
    unfold coup at h
    simp only [hturn, ht, ha] at h
    rw [if_neg (by simp)] at h
    rw [if_neg (by simp [List.isEmpty_iff, htc])] at h
    rw [if_neg hne] at h
    rw [if_neg (by omega)] at h
    repeat' split at h
    all_goals (try exact Option.noConfusion h)
    all_goals (try exact finish_turn_no_reject _ _ _ _ _ h)
    all_goals (injection h with h; injection h with h1 h2; exact h1.symm)

theorem claim4_witness :
    income allPresent g2rich 1 = some (some Reject.mustCoup, g2rich) ∧
    foreign_aid id allPresent g2rich 1 BlockWindow.noResponse
      = some (some Reject.mustCoup, g2rich) ∧
    tax id allPresent g2rich 1 ChallengeWindow.noResponse
      = some (some Reject.mustCoup, g2rich) ∧
    exchange id id allPresent g2rich 1 ChallengeWindow.noResponse true []
      = some (some Reject.mustCoup, g2rich) ∧
    assassinate id allPresent g2rich 1 2 DualWindow.noResponse
      = some (some Reject.mustCoup, g2rich) ∧
    steal id allPresent g2rich 1 2 DualWindow.noResponse
      = some (some Reject.mustCoup, g2rich) ∧
    (none : Option Reject) = none :=
  ⟨claim4_forced_coup.1 allPresent g2rich 1 _ rfl rfl (by decide),
   claim4_forced_coup.2.1 id allPresent g2rich 1 _ BlockWindow.noResponse rfl rfl (by decide),
   claim4_forced_coup.2.2.1 id allPresent g2rich 1 _ ChallengeWindow.noResponse rfl rfl (by decide),
   claim4_forced_coup.2.2.2.1 id id allPresent g2rich 1 _ ChallengeWindow.noResponse true []
     rfl rfl (by decide),
   claim4_forced_coup.2.2.2.2.1 id allPresent g2rich 1 2 _ _ DualWindow.noResponse
     rfl rfl (by decide) (by decide) rfl (by decide),
   claim4_forced_coup.2.2.2.2.2.1 id allPresent g2rich 1 2 _ _ DualWindow.noResponse
     rfl rfl (by decide) (by decide) rfl (by decide),
   claim4_forced_coup.2.2.2.2.2.2 id allPresent g2rich 1 2 _ _ none _
     rfl rfl (by decide) (by decide) rfl (by decide) rfl⟩

set_option maxHeartbeats 1000000 in
/-- Any rejection of `income` leaves the state unchanged. -/
theorem income_reject_frame :
    ∀ (present : Nat → Bool) (s : GameState) (actor : Nat) (rj : Reject)
      (s2 : GameState), income present s actor = some (some rj, s2) → s2 = s := by
  intro present s actor rj s2 h
  unfold income at h
  repeat' (first | split at h | dsimp only at h)
  all_goals (try exact Option.noConfusion h)
  all_goals
    (try (have hn := finish_turn_no_reject _ _ _ _ _ h; exact Option.noConfusion hn))
  all_goals injection h with h
  all_goals injection h with h1 h2
  all_goals (first | exact h2.symm | exact Option.noConfusion h1)

set_option maxHeartbeats 1000000 in
/-- Any rejection of `foreign_aid` leaves the state unchanged. -/
theorem foreign_aid_reject_frame :
    ∀ (shuffle : List Card → List Card) (present : Nat → Bool) (s : GameState)
      (actor : Nat) (resp : BlockWindow) (rj : Reject) (s2 : GameState),
      foreign_aid shuffle present s actor resp = some (some rj, s2) → s2 = s := by
  intro sh present s actor resp rj s2 h
  unfold foreign_aid at h
  repeat' (first | split at h | dsimp only at h)
  all_goals (try exact Option.noConfusion h)
  all_goals
    (try (have hn := finish_turn_no_reject _ _ _ _ _ h; exact Option.noConfusion hn))
  all_goals injection h with h
  all_goals injection h with h1 h2
  all_goals (first | exact h2.symm | exact Option.noConfusion h1)

set_option maxHeartbeats 1000000 in
/-- Any rejection of `coup` leaves the state unchanged. -/
theorem coup_reject_frame :
    ∀ (shuffle : List Card → List Card) (present : Nat → Bool) (s : GameState)
      (actor target : Nat) (rj : Reject) (s2 : GameState),
      coup shuffle present s actor target = some (some rj, s2) → s2 = s := by
  intro sh present s actor target rj s2 h
  unfold coup at h
  repeat' (first | split at h | dsimp only at h)
  all_goals (try exact Option.noConfusion h)
  all_goals
    (try (have hn := finish_turn_no_reject _ _ _ _ _ h; exact Option.noConfusion hn))
  all_goals injection h with h
  all_goals injection h with h1 h2
  all_goals (first | exact h2.symm | exact Option.noConfusion h1)

set_option maxHeartbeats 1600000 in
/-- Any rejection of `assassinate` leaves the state unchanged. -/
theorem assassinate_reject_frame :
    ∀ (shuffle : List Card → List Card) (present : Nat → Bool) (s : GameState)
      (actor target : Nat) (resp : DualWindow) (rj : Reject) (s2 : GameState),
      assassinate shuffle present s actor target resp = some (some rj, s2) → s2 = s := by
  intro sh present s actor target resp rj s2 h
  unfold assassinate assassinate_effect at h
  repeat' (first | split at h | dsimp only at h)
  all_goals (try exact Option.noConfusion h)
  all_goals
    (try (have hn := finish_turn_no_reject _ _ _ _ _ h; exact Option.noConfusion hn))
  all_goals injection h with h
  all_goals injection h with h1 h2
  all_goals (first | exact h2.symm | exact Option.noConfusion h1)

set_option maxHeartbeats 1000000 in
/-- Any rejection of `tax` leaves the state unchanged. -/
theorem tax_reject_frame :
    ∀ (shuffle : List Card → List Card) (present : Nat → Bool) (s : GameState)
      (actor : Nat) (resp : ChallengeWindow) (rj : Reject) (s2 : GameState),
      tax shuffle present s actor resp = some (some rj, s2) → s2 = s := by
  intro sh present s actor resp rj s2 h
  unfold tax at h
  repeat' (first | split at h | dsimp only at h)
  all_goals (try exact Option.noConfusion h)
  all_goals
    (try (have hn := finish_turn_no_reject _ _ _ _ _ h; exact Option.noConfusion hn))
  all_goals injection h with h
  all_goals injection h with h1 h2
  all_goals (first | exact h2.symm | exact Option.noConfusion h1)

set_option maxHeartbeats 1600000 in
/-- Any rejection of `steal` leaves the state unchanged. -/
theorem steal_reject_frame :
    ∀ (shuffle : List Card → List Card) (present : Nat → Bool) (s : GameState)
      (actor target : Nat) (resp : DualWindow) (rj : Reject) (s2 : GameState),
      steal shuffle present s actor target resp = some (some rj, s2) → s2 = s := by
  intro sh present s actor target resp rj s2 h
  unfold steal steal_transfer at h
  repeat' (first | split at h | dsimp only at h)
  all_goals (try exact Option.noConfusion h)
  all_goals
    (try (have hn := finish_turn_no_reject _ _ _ _ _ h; exact Option.noConfusion hn))
  all_goals injection h with h
  all_goals injection h with h1 h2
  all_goals (first | exact h2.symm | exact Option.noConfusion h1)

set_option maxHeartbeats 1600000 in
/-- Any rejection of `exchange` leaves the state unchanged. -/
theorem exchange_reject_frame :
    ∀ (shuffle rshuffle : List Card → List Card) (present : Nat → Bool)
      (s : GameState) (actor : Nat) (resp : ChallengeWindow) (dmOkActor : Bool)
      (picks : List Nat) (rj : Reject) (s2 : GameState),
      exchange shuffle rshuffle present s actor resp dmOkActor picks
        = some (some rj, s2) → s2 = s := by
  intro sh rsh present s actor resp dmOk picks rj s2 h
  unfold exchange at h
  repeat' (first | split at h | dsimp only at h)
  all_goals (try exact Option.noConfusion h)
  all_goals
    (try (have hn := finish_turn_no_reject _ _ _ _ _ h; exact Option.noConfusion hn))
  all_goals injection h with h
  all_goals injection h with h1 h2
  all_goals (first | exact h2.symm | exact Option.noConfusion h1)

/-- C9: Validation atomicity — every rejection of any of the seven action
commands leaves the table state exactly unchanged (preconditions are
checked before any mutation), the wrong-turn precondition is detected with
its named reason on every command, and the coup validation cascade reports
the specific named reason for an absent target, an eliminated target, a
self-target, and insufficient coins. -/
theorem claim9_validation_atomicity :
    (∀ (present : Nat → Bool) (s : GameState) (actor : Nat) (rj : Reject)
        (s2 : GameState), income present s actor = some (some rj, s2) → s2 = s) ∧
    (∀ (shuffle : List Card → List Card) (present : Nat → Bool) (s : GameState)
        (actor : Nat) (resp : BlockWindow) (rj : Reject) (s2 : GameState),
        foreign_aid shuffle present s actor resp = some (some rj, s2) → s2 = s) ∧
    (∀ (shuffle : List Card → List Card) (present : Nat → Bool) (s : GameState)
        (actor target : Nat) (rj : Reject) (s2 : GameState),
        coup shuffle present s actor target = some (some rj, s2) → s2 = s) ∧
    (∀ (shuffle : List Card → List Card) (present : Nat → Bool) (s : GameState)
        (actor target : Nat) (resp : DualWindow) (rj : Reject) (s2 : GameState),
        assassinate shuffle present s actor target resp = some (some rj, s2) → s2 = s) ∧
    (∀ (shuffle : List Card → List Card) (present : Nat → Bool) (s : GameState)
        (actor : Nat) (resp : ChallengeWindow) (rj : Reject) (s2 : GameState),
        tax shuffle present s actor resp = some (some rj, s2) → s2 = s) ∧
    (∀ (shuffle : List Card → List Card) (present : Nat → Bool) (s : GameState)
        (actor target : Nat) (resp : DualWindow) (rj : Reject) (s2 : GameState),
        steal shuffle present s actor target resp = some (some rj, s2) → s2 = s) ∧
    (∀ (shuffle rshuffle : List Card → List Card) (present : Nat → Bool)
        (s : GameState) (actor : Nat) (resp : ChallengeWindow) (dmOkActor : Bool)
        (picks : List Nat) (rj : Reject) (s2 : GameState),
        exchange shuffle rshuffle present s actor resp dmOkActor picks
          = some (some rj, s2) → s2 = s) ∧
    (∀ (present : Nat → Bool) (s : GameState) (actor : Nat),
        s.current_player ≠ some actor →
        income present s actor = some (some Reject.notYourTurn, s)) ∧
    (∀ (shuffle : List Card → List Card) (present : Nat → Bool) (s : GameState)
        (actor : Nat) (resp : BlockWindow), s.current_player ≠ some actor →
        foreign_aid shuffle present s actor resp = some (some Reject.notYourTurn, s)) ∧
    (∀ (shuffle : List Card → List Card) (present : Nat → Bool) (s : GameState)
        (actor target : Nat), s.current_player ≠ some actor →
        coup shuffle present s actor target = some (some Reject.notYourTurn, s)) ∧
    (∀ (shuffle : List Card → List Card) (present : Nat → Bool) (s : GameState)
        (actor target : Nat) (resp : DualWindow), s.current_player ≠ some actor →
        assassinate shuffle present s actor target resp
          = some (some Reject.notYourTurn, s)) ∧
    (∀ (shuffle : List Card → List Card) (present : Nat → Bool) (s : GameState)
        (actor : Nat) (resp : ChallengeWindow), s.current_player ≠ some actor →
        tax shuffle present s actor resp = some (some Reject.notYourTurn, s)) ∧
    (∀ (shuffle : List Card → List Card) (present : Nat → Bool) (s : GameState)
        (actor target : Nat) (resp : DualWindow), s.current_player ≠ some actor →
        steal shuffle present s actor target resp = some (some Reject.notYourTurn, s)) ∧
    (∀ (shuffle rshuffle : List Card → List Card) (present : Nat → Bool)
        (s : GameState) (actor : Nat) (resp : ChallengeWindow) (dmOkActor : Bool)
        (picks : List Nat), s.current_player ≠ some actor →
        exchange shuffle rshuffle present s actor resp dmOkActor picks
          = some (some Reject.notYourTurn, s)) ∧
    (∀ (shuffle : List Card → List Card) (present : Nat → Bool) (s : GameState)
        (actor target : Nat), s.current_player = some actor →
        lookupP s.players target = none →
        coup shuffle present s actor target = some (some Reject.targetNotInGame, s)) ∧
    (∀ (shuffle : List Card → List Card) (present : Nat → Bool) (s : GameState)
        (actor target : Nat) (dt : PlayerData), s.current_player = some actor →
        lookupP s.players target = some dt → dt.cards = [] →
        coup shuffle present s actor target = some (some Reject.targetEliminated, s)) ∧
    (∀ (shuffle : List Card → List Card) (present : Nat → Bool) (s : GameState)
        (actor target : Nat) (dt : PlayerData), s.current_player = some actor →
        lookupP s.players target = some dt → dt.cards ≠ [] → actor = target →
        coup shuffle present s actor target = some (some Reject.selfTarget, s)) ∧
    (∀ (shuffle : List Card → List Card) (present : Nat → Bool) (s : GameState)
        (actor target : Nat) (dt da : PlayerData), s.current_player = some actor →
        lookupP s.players target = some dt → dt.cards ≠ [] → actor ≠ target →
        lookupP s.players actor = some da → da.coins < 7 →
        coup shuffle present s actor target = some (some Reject.insufficientCoins, s)) := by
  refine ⟨income_reject_frame, foreign_aid_reject_frame, coup_reject_frame,
    assassinate_reject_frame, tax_reject_frame, steal_reject_frame,
    exchange_reject_frame, ?_, ?_, ?_, ?_, ?_, ?_, ?_, ?_, ?_, ?_, ?_⟩
  · intro present s actor hturn
    unfold income
    rw [if_pos hturn]
  · intro sh present s actor resp hturn
    unfold foreign_aid
    rw [if_pos hturn]
  · intro sh present s actor target hturn
    unfold coup
    rw [if_pos hturn]
  · intro sh present s actor target resp hturn
    unfold assassinate
    rw [if_pos hturn]
  · intro sh present s actor resp hturn
    unfold tax
    rw [if_pos hturn]
  · intro sh present s actor target resp hturn
    unfold steal
    rw [if_pos hturn]
  · intro sh rsh present s actor resp dmOk picks hturn
    unfold exchange
    rw [if_pos hturn]
  · intro sh present s actor target hturn ht
    unfold coup
    simp only [hturn, ht]
    rw [if_neg (by simp)]
  · intro sh present s actor target dt hturn ht htc
    unfold coup
    simp only [hturn, ht]
    rw [if_neg (by simp)]
    rw [if_pos (by simp [List.isEmpty_iff, htc])]
  · intro sh present s actor target dt hturn ht htc hself
    unfold coup
    simp only [hturn, ht]
    rw [if_neg (by simp)]
    rw [if_neg (by simp [List.isEmpty_iff, htc])]
    rw [if_pos hself]
  · intro sh present s actor target dt da hturn ht htc hne ha hcoins
    unfold coup
    simp only [hturn, ht, ha]
    rw [if_neg (by simp)]
    rw [if_neg (by simp [List.isEmpty_iff, htc])]
    rw [if_neg hne]
    rw [if_pos hcoins]

theorem claim9_witness :
    (g2 = g2 ∧ g2 = g2 ∧ g2 = g2 ∧ g2 = g2 ∧ g2 = g2 ∧ g2 = g2 ∧ g2 = g2) ∧
    (income allPresent g2 2 = some (some Reject.notYourTurn, g2) ∧
     foreign_aid id allPresent g2 2 BlockWindow.noResponse
       = some (some Reject.notYourTurn, g2) ∧
     coup id allPresent g2 2 1 = some (some Reject.notYourTurn, g2) ∧
     assassinate id allPresent g2 2 1 DualWindow.noResponse
       = some (some Reject.notYourTurn, g2) ∧
     tax id allPresent g2 2 ChallengeWindow.noResponse
       = some (some Reject.notYourTurn, g2) ∧
     steal id allPresent g2 2 1 DualWindow.noResponse
       = some (some Reject.notYourTurn, g2) ∧
     exchange id id allPresent g2 2 ChallengeWindow.noResponse true []
       = some (some Reject.notYourTurn, g2)) ∧
    (coup id allPresent g2 1 5 = some (some Reject.targetNotInGame, g2) ∧
     coup id allPresent gElim 1 3 = some (some Reject.targetEliminated, gElim) ∧
     coup id allPresent g2 1 1 = some (some Reject.selfTarget, g2) ∧
     coup id allPresent g2 1 2 = some (some Reject.insufficientCoins, g2)) := by
  obtain ⟨h1, h2, h3, h4, h5, h6, h7, h8, h9, h10, h11, h12, h13, h14,
    h15, h16, h17, h18⟩ := claim9_validation_atomicity
  refine ⟨⟨?_, ?_, ?_, ?_, ?_, ?_, ?_⟩, ⟨?_, ?_, ?_, ?_, ?_, ?_, ?_⟩, ?_, ?_, ?_, ?_⟩
  · exact h1 allPresent g2 2 Reject.notYourTurn g2 (by decide)
  · exact h2 id allPresent g2 2 BlockWindow.noResponse Reject.notYourTurn g2 (by decide)
  · exact h3 id allPresent g2 2 1 Reject.notYourTurn g2 (by decide)
  · exact h4 id allPresent g2 2 1 DualWindow.noResponse Reject.notYourTurn g2 (by decide)
  · exact h5 id allPresent g2 2 ChallengeWindow.noResponse Reject.notYourTurn g2 (by decide)
  · exact h6 id allPresent g2 2 1 DualWindow.noResponse Reject.notYourTurn g2 (by decide)
  · exact h7 id id allPresent g2 2 ChallengeWindow.noResponse true []
      Reject.notYourTurn g2 (by decide)
  · exact h8 allPresent g2 2 (by decide)
  · exact h9 id allPresent g2 2 BlockWindow.noResponse (by decide)
  · exact h10 id allPresent g2 2 1 (by decide)
  · exact h11 id allPresent g2 2 1 DualWindow.noResponse (by decide)
  · exact h12 id allPresent g2 2 ChallengeWindow.noResponse (by decide)
  · exact h13 id allPresent g2 2 1 DualWindow.noResponse (by decide)
  · exact h14 id id allPresent g2 2 ChallengeWindow.noResponse true [] (by decide)
  · exact h15 id allPresent g2 1 5 rfl (by decide)
  · exact h16 id allPresent gElim 1 3 _ rfl rfl (by decide)
  · exact h17 id allPresent g2 1 1 _ rfl rfl (by decide) rfl
  · exact h18 id allPresent g2 1 2 _ _ rfl rfl (by decide) (by decide) rfl (by decide)

/-- When every player is still on the platform, `advance_turn` can only
move the current-player pointer. -/
theorem advance_turn_allPresent (present : Nat → Bool)
    (hpres : ∀ p, present p = true) :
    ∀ (fuel : Nat) (t : GameState) (cur : Nat) (t2 : GameState),
      advance_turn present fuel t cur = some t2 →
      t2.players = t.players ∧ t2.court_deck = t.court_deck ∧
        t2.discarded_cards = t.discarded_cards ∧
        t2.game_started = t.game_started := by
  intro fuel
  induction fuel with
  | zero => intro t cur t2 h; exact Option.noConfusion h
  | succ n ih =>
    intro t cur t2 h
    unfold advance_turn at h
    split at h
    · split at h
      · exact Option.noConfusion h
      · injection h with h
        rw [← h]
        exact ⟨rfl, rfl, rfl, rfl⟩
    · rename_i cp hcp
      rw [hpres cp] at h
      simp only [if_true] at h
      injection h with h
      rw [← h]
      exact ⟨rfl, rfl, rfl, rfl⟩

/-- `finish_turn` under an all-present roster: no rejection, and only the
current-player pointer moves. -/
theorem finish_turn_allPresent (present : Nat → Bool)
    (hpres : ∀ p, present p = true) (t : GameState) (cur : Nat)
    (r : Option Reject) (t2 : GameState)
    (h : finish_turn present t cur = some (r, t2)) :
    r = none ∧ t2.players = t.players ∧ t2.court_deck = t.court_deck ∧
      t2.discarded_cards = t.discarded_cards ∧ t2.game_started = t.game_started := by
  unfold finish_turn at h
  cases ha : advance_turn present (t.players.length + 1) t cur with
  | none => rw [ha] at h; exact Option.noConfusion h
  | some t3 =>
    rw [ha] at h
    injection h with h
    injection h with h1 h2
    obtain ⟨hp, hd, hdis, hg⟩ := advance_turn_allPresent present hpres _ t cur t3 ha
    subst h2
    exact ⟨h1.symm, hp, hd, hdis, hg⟩

/-- C6: Assassinate pays up-front and is not refunded — with valid
preconditions the 3-coin cost is deducted before the response window, and
on an unchallenged Contessa block the command completes with the actor's 3
coins still spent, the target's hand untouched, and the turn advanced. -/
theorem claim6_assassinate_upfront_not_refunded (shuffle : List Card → List Card)
    (present : Nat → Bool) (s : GameState) (actor target blocker : Nat)
    (dt da : PlayerData) (nxt : Nat)
    (hturn : s.current_player = some actor)
    (ht : lookupP s.players target = some dt) (htc : dt.cards ≠ [])
    (hne : actor ≠ target) (ha : lookupP s.players actor = some da)
    (h3 : 3 ≤ da.coins) (h10 : da.coins < 10)
    (hn : get_next_player
      { s with players := updateP s.players actor (fun d => { d with coins := d.coins - 3 }) }
      actor = some nxt)
    (hp : present nxt = true) :
    assassinate shuffle present s actor target (DualWindow.block blocker none)
      = some (none,
          { s with
              players := updateP s.players actor (fun d => { d with coins := d.coins - 3 }),
              current_player := some nxt }) ∧
    lookupP (updateP s.players actor
        (fun d => { d with coins := d.coins - 3 })) target = some dt ∧
    (lookupP (updateP s.players actor
        (fun d => { d with coins := d.coins - 3 })) actor).map PlayerData.coins
      = some (da.coins - 3) := by
  refine ⟨?_, ?_, ?_⟩
  · unfold assassinate
    rw [if_neg (show ¬s.current_player ≠ some actor by simp [hturn])]
    simp only [ht, ha]
    rw [if_neg (by simp [List.isEmpty_iff, htc])]
    rw [if_neg hne]
    rw [if_neg (by omega)]
    rw [if_neg (by omega)]
    exact finish_turn_present present _ actor nxt
      (by rw [isSome_lookupP_updateP, ha]; rfl) hn hp
  · rw [lookupP_updateP_ne _ _ _ _ (fun he => hne he.symm)]
    exact ht
  · rw [lookupP_updateP_self, ha]
    rfl

theorem claim6_witness :
    assassinate id allPresent g2 1 2 (DualWindow.block 2 none)
      = some (none,
          { g2 with
              players := updateP g2.players 1 (fun d => { d with coins := d.coins - 3 }),
              current_player := some 2 }) ∧
    lookupP (updateP g2.players 1 (fun d => { d with coins := d.coins - 3 })) 2
      = some ⟨[Card.Contessa, Card.Captain], 2⟩ ∧
    (lookupP (updateP g2.players 1 (fun d => { d with coins := d.coins - 3 })) 1).map
        PlayerData.coins = some ((3 : Int) - 3) :=
  claim6_assassinate_upfront_not_refunded id allPresent g2 1 2 2
    ⟨[Card.Contessa, Card.Captain], 2⟩ ⟨[Card.Duke, Card.Assassin], 3⟩ 2
    rfl rfl (by decide) (by decide) rfl (by decide) (by decide) (by decide) rfl

/-- A steal that draws no response transfers exactly `min 2 target.coins`
from target to actor and advances the turn. -/
theorem steal_noresponse_spec (shuffle : List Card → List Card)
    (present : Nat → Bool) (s : GameState) (actor target : Nat)
    (dt da : PlayerData) (nxt : Nat)
    (hturn : s.current_player = some actor)
    (ht : lookupP s.players target = some dt) (htc : dt.cards ≠ [])
    (hne : actor ≠ target) (ha : lookupP s.players actor = some da)
    (h10 : da.coins < 10) (hc1 : 1 ≤ dt.coins)
    (hn : get_next_player
      { s with players := updateP (updateP s.players actor (fun d => { d with coins := d.coins + min 2 dt.coins })) target (fun d => { d with coins := d.coins - min 2 dt.coins }) }
      actor = some nxt)
    (hp : present nxt = true) :
    steal shuffle present s actor target DualWindow.noResponse
      = some (none,
          { s with
              players := updateP (updateP s.players actor (fun d => { d with coins := d.coins + min 2 dt.coins })) target (fun d => { d with coins := d.coins - min 2 dt.coins }),
              current_player := some nxt }) ∧
    (lookupP (updateP (updateP s.players actor (fun d => { d with coins := d.coins + min 2 dt.coins })) target (fun d => { d with coins := d.coins - min 2 dt.coins })) target).map PlayerData.coins
      = some (dt.coins - min 2 dt.coins) ∧
    (lookupP (updateP (updateP s.players actor (fun d => { d with coins := d.coins + min 2 dt.coins })) target (fun d => { d with coins := d.coins - min 2 dt.coins })) actor).map PlayerData.coins
      = some (da.coins + min 2 dt.coins) ∧
    (0 ≤ dt.coins → 0 ≤ dt.coins - min 2 dt.coins) := by
  refine ⟨?_, ?_, ?_, by intro h0; omega⟩
  · unfold steal
    rw [if_neg (show ¬s.current_player ≠ some actor by simp [hturn])]
    simp only [ht, ha]
    rw [if_neg (by simp [List.isEmpty_iff, htc])]
    rw [if_neg hne]
    rw [if_neg (by omega)]
    rw [if_neg (by omega)]
    rw [if_pos (List.length_pos.mpr htc)]
    unfold steal_transfer
    simp only [ht, ha]
    exact finish_turn_present present _ actor nxt
      (by rw [isSome_lookupP_updateP, isSome_lookupP_updateP, ha]; rfl) hn hp
  · rw [lookupP_updateP_self]
    rw [lookupP_updateP_ne _ _ _ _ (fun he => hne he.symm)]
    rw [ht]
    rfl
  · rw [lookupP_updateP_ne _ _ _ _ hne]
    rw [lookupP_updateP_self, ha]
    rfl

/-- Bookkeeping: new helper lemmas for fully general steal paths. -/
theorem lookupP_not_mem (ps : Roster) (p : Nat) :
    p ∉ ps.map Prod.fst → lookupP ps p = none := by
  induction ps with
  | nil => intro h; rfl
  | cons hd rest ih =>
    obtain ⟨q, d⟩ := hd
    intro h
    simp only [List.map_cons, List.mem_cons] at h
    push_neg at h
    unfold lookupP
    rw [if_neg (fun he => h.1 he.symm)]
    exact ih h.2

theorem keys_removeP (ps : Roster) (p : Nat) :
    (removeP ps p).map Prod.fst = (ps.map Prod.fst).erase p := by
  induction ps with
  | nil => rfl
  | cons hd rest ih =>
    obtain ⟨q, d⟩ := hd
    by_cases hq : q = p
    · subst hq
      simp [removeP]
    · rw [show removeP ((q, d) :: rest) p = (q, d) :: removeP rest p by simp [removeP, hq]]
      rw [List.map_cons, ih, List.map_cons]
      rw [List.erase_cons_tail (by simpa using hq)]

theorem lookupP_removeP_self_nodup (ps : Roster) (p : Nat)
    (hnd : (ps.map Prod.fst).Nodup) : lookupP (removeP ps p) p = none := by
  apply lookupP_not_mem
  rw [keys_removeP]
  exact hnd.not_mem_erase

theorem card_swap_keys (s : GameState) (p : Nat) (c : Card) :
    (handle_card_swap s p c).players.map Prod.fst = s.players.map Prod.fst := by
  unfold handle_card_swap
  by_cases hd : s.court_deck.length < 1
  · simp [hd]
  · simp only [if_neg hd]
    cases hl : lookupP s.players p with
    | none => rfl
    | some d =>
      simp only []
      by_cases hc : c ∈ d.cards
      · obtain ⟨drawn, deck2, hpop, hdl⟩ := popTop_some (c :: s.court_deck) (by simp)
        simp only [if_pos hc, hpop]
        exact keys_updateP s.players p _
      · simp [hc]

theorem lose_influence_keys (s : GameState) (p : Nat) (s2 : GameState)
    (c : Option Card) (h : lose_influence s p = some (s2, c)) :
    s2.players.map Prod.fst = s.players.map Prod.fst := by
  unfold lose_influence at h
  cases hl : lookupP s.players p with
  | none => simp [hl] at h
  | some d =>
    simp only [hl] at h
    cases hg : d.cards.getLast? with
    | none =>
      simp only [hg] at h
      simp at h
      rw [← h.1]
    | some lost =>
      simp only [hg] at h
      simp at h
      rw [← h.1]
      exact keys_updateP s.players p _

/-- Every roster entry of the state a no-game-end elimination returns was
an entry of the input state (the eliminated player is merely deleted). -/
theorem elimination_no_end_entry (shuffle : List Card → List Card) (s : GameState)
    (p : Nat) (el : Bool) (nx : Option Nat) (s3 : GameState)
    (hnd : (s.players.map Prod.fst).Nodup)
    (h : handle_player_elimination shuffle s p = some (el, false, nx, s3)) :
    ∀ q dq2, lookupP s3.players q = some dq2 → lookupP s.players q = some dq2 := by
  unfold handle_player_elimination at h
  cases hl : lookupP s.players p with
  | none => simp [hl] at h
  | some d =>
    simp only [hl] at h
    by_cases he : d.cards.isEmpty
    · simp only [he, if_pos] at h
      cases hn : get_next_player s p with
      | none => simp [hn] at h
      | some nxt =>
        simp only [hn] at h
        cases hw : check_win_condition { s with players := removeP s.players p } with
        | some w => simp [hw] at h
        | none =>
          simp only [hw] at h
          simp at h
          obtain ⟨-, -, hs3⟩ := h
          intro q dq2 hq
          rw [← hs3] at hq
          by_cases hqp : q = p
          · subst hqp
            rw [show lookupP ({ s with players := removeP s.players q } : GameState).players q
                = lookupP (removeP s.players q) q from rfl] at hq
            rw [lookupP_removeP_self_nodup s.players q hnd] at hq
            exact Option.noConfusion hq
          · rw [show lookupP ({ s with players := removeP s.players p } : GameState).players q
                = lookupP (removeP s.players p) q from rfl] at hq
            rw [lookupP_removeP_ne s.players p q hqp] at hq
            exact hq
    · simp only [he, if_neg, Bool.false_eq_true] at h
      simp at h
      obtain ⟨-, -, hs3⟩ := h
      intro q dq2 hq
      rw [← hs3] at hq
      exact hq

/-- Influence loss keeps every surviving roster entry's coin balance. -/
theorem lose_entry_coins (s : GameState) (p : Nat) (s2 : GameState) (c : Option Card)
    (h : lose_influence s p = some (s2, c)) :
    ∀ q dq2, lookupP s2.players q = some dq2 →
      ∃ dq, lookupP s.players q = some dq ∧ dq2.coins = dq.coins := by
  intro q dq2 hq
  obtain ⟨-, -, -, hcoins, -⟩ := lose_influence_frame s p s2 c h
  have hcq := hcoins q
  unfold coinsOf at hcq
  rw [hq] at hcq
  simp only [Option.map_some'] at hcq
  obtain ⟨dq, hdq, hc2⟩ := (Option.map_eq_some').mp hcq.symm
  exact ⟨dq, hdq, hc2.symm⟩

/-- A card swap keeps every roster entry's coin balance. -/
theorem card_swap_entry_coins (s : GameState) (p : Nat) (c : Card) :
    ∀ q dq2, lookupP (handle_card_swap s p c).players q = some dq2 →
      ∃ dq, lookupP s.players q = some dq ∧ dq2.coins = dq.coins := by
  intro q dq2 hq
  obtain ⟨-, -, -, -, hcoins, -⟩ := card_swap_frame s p c
  have hcq := hcoins q
  unfold coinsOf at hcq
  rw [hq] at hcq
  simp only [Option.map_some'] at hcq
  obtain ⟨dq, hdq, hc2⟩ := (Option.map_eq_some').mp hcq.symm
  exact ⟨dq, hdq, hc2.symm⟩

set_option maxHeartbeats 800000 in
/-- Whenever a block challenge resolves without ending the game — any
blocker, any challenger, any hand sizes, elimination included — every
player still in the roster afterwards was in the roster before with the
same coin balance: the resolution only moves cards and possibly deletes
the influence-loss loser. -/
theorem handle_block_challenge_entry_coins (shuffle : List Card → List Card)
    (s : GameState) (blocker ch : Nat) (cards : List Card) (legit : Bool)
    (el nx : Option Nat) (s2 : GameState)
    (hnd : (s.players.map Prod.fst).Nodup)
    (h : handle_block_challenge shuffle s blocker ch cards
      = some (legit, false, el, nx, s2)) :
    ∀ q dq2, lookupP s2.players q = some dq2 →
      ∃ dq, lookupP s.players q = some dq ∧ dq2.coins = dq.coins := by
  unfold handle_block_challenge at h
  cases hb : lookupP s.players blocker with
  | none => simp only [hb] at h; exact Option.noConfusion h
  | some db =>
    simp only [hb] at h
    cases hf : cards.find? (fun c => c ∈ db.cards) with
    | some found =>
      simp only [hf] at h
      cases hch : lookupP (handle_card_swap s blocker found).players ch with
      | none => simp only [hch] at h; exact Option.noConfusion h
      | some dch =>
        simp only [hch] at h
        by_cases hpos : 0 < dch.cards.length
        · rw [if_pos hpos] at h
          cases hli : lose_influence (handle_card_swap s blocker found) ch with
          | none => simp only [hli] at h; exact Option.noConfusion h
          | some pr =>
            obtain ⟨t1, c⟩ := pr
            simp only [hli] at h
            cases hel : handle_player_elimination shuffle t1 ch with
            | none => simp only [hel] at h; exact Option.noConfusion h
            | some r4 =>
              obtain ⟨e1, ge, nxp, t2⟩ := r4
              simp only [hel] at h
              injection h with h
              simp only [Prod.mk.injEq] at h
              obtain ⟨-, hge, -, -, h5⟩ := h
              subst h5
              subst hge
              intro q dq2 hq
              have hnd1 : (t1.players.map Prod.fst).Nodup := by
                rw [lose_influence_keys _ ch _ _ hli, card_swap_keys]
                exact hnd
              have hq1 := elimination_no_end_entry shuffle t1 ch e1 nxp _ hnd1 hel q dq2 hq
              obtain ⟨d1, hd1, hd1c⟩ := lose_entry_coins _ ch _ _ hli q dq2 hq1
              obtain ⟨dq, hdq, hdqc⟩ := card_swap_entry_coins s blocker found q d1 hd1
              exact ⟨dq, hdq, by rw [hd1c, hdqc]⟩
        · rw [if_neg hpos] at h
          injection h with h
          simp only [Prod.mk.injEq] at h
          obtain ⟨-, -, -, -, h5⟩ := h
          subst h5
          intro q dq2 hq
          exact card_swap_entry_coins s blocker found q dq2 hq
    | none =>
      simp only [hf] at h
      by_cases hpos : 0 < db.cards.length
      · rw [if_pos hpos] at h
        cases hli : lose_influence s blocker with
        | none => simp only [hli] at h; exact Option.noConfusion h
        | some pr =>
          obtain ⟨t1, c⟩ := pr
          simp only [hli] at h
          cases hel : handle_player_elimination shuffle t1 blocker with
          | none => simp only [hel] at h; exact Option.noConfusion h
          | some r4 =>
            obtain ⟨e1, ge, nxp, t2⟩ := r4
            simp only [hel] at h
            injection h with h
            simp only [Prod.mk.injEq] at h
            obtain ⟨-, hge, -, -, h5⟩ := h
            subst h5
            subst hge
            intro q dq2 hq
            have hnd1 : (t1.players.map Prod.fst).Nodup := by
              rw [lose_influence_keys s blocker t1 c hli]
              exact hnd
            have hq1 := elimination_no_end_entry shuffle t1 blocker e1 nxp _ hnd1 hel q dq2 hq
            exact lose_entry_coins s blocker t1 c hli q dq2 hq1
      · rw [if_neg hpos] at h
        injection h with h
        simp only [Prod.mk.injEq] at h
        obtain ⟨-, -, -, -, h5⟩ := h
        subst h5
        intro q dq2 hq
        exact ⟨dq2, hq, rfl⟩

set_option maxHeartbeats 800000 in
/-- The same entry-and-coins preservation for a direct challenge that
resolves without ending the game. -/
theorem handle_challenge_entry_coins (shuffle : List Card → List Card)
    (s : GameState) (claimer ch : Nat) (required : Card) (legit : Bool)
    (el nx : Option Nat) (s2 : GameState)
    (hnd : (s.players.map Prod.fst).Nodup)
    (h : handle_challenge shuffle s claimer ch required
      = some (legit, false, el, nx, s2)) :
    ∀ q dq2, lookupP s2.players q = some dq2 →
      ∃ dq, lookupP s.players q = some dq ∧ dq2.coins = dq.coins := by
  unfold handle_challenge at h
  cases hb : lookupP s.players claimer with
  | none => simp only [hb] at h; exact Option.noConfusion h
  | some dc =>
    simp only [hb] at h
    by_cases hcin : required ∈ dc.cards
    · rw [if_pos hcin] at h
      cases hch : lookupP (handle_card_swap s claimer required).players ch with
      | none => simp only [hch] at h; exact Option.noConfusion h
      | some dch =>
        simp only [hch] at h
        by_cases hpos : 0 < dch.cards.length
        · rw [if_pos hpos] at h
          cases hli : lose_influence (handle_card_swap s claimer required) ch with
          | none => simp only [hli] at h; exact Option.noConfusion h
          | some pr =>
            obtain ⟨t1, c⟩ := pr
            simp only [hli] at h
            cases hel : handle_player_elimination shuffle t1 ch with
            | none => simp only [hel] at h; exact Option.noConfusion h
            | some r4 =>
              obtain ⟨e1, ge, nxp, t2⟩ := r4
              simp only [hel] at h
              injection h with h
              simp only [Prod.mk.injEq] at h
              obtain ⟨-, hge, -, -, h5⟩ := h
              subst h5
              subst hge
              intro q dq2 hq
              have hnd1 : (t1.players.map Prod.fst).Nodup := by
                rw [lose_influence_keys _ ch _ _ hli, card_swap_keys]
                exact hnd
              have hq1 := elimination_no_end_entry shuffle t1 ch e1 nxp _ hnd1 hel q dq2 hq
              obtain ⟨d1, hd1, hd1c⟩ := lose_entry_coins _ ch _ _ hli q dq2 hq1
              obtain ⟨dq, hdq, hdqc⟩ := card_swap_entry_coins s claimer required q d1 hd1
              exact ⟨dq, hdq, by rw [hd1c, hdqc]⟩
        · rw [if_neg hpos] at h
          injection h with h
          simp only [Prod.mk.injEq] at h
          obtain ⟨-, -, -, -, h5⟩ := h
          subst h5
          intro q dq2 hq
          exact card_swap_entry_coins s claimer required q dq2 hq
    · rw [if_neg hcin] at h
      by_cases hpos : 0 < dc.cards.length
      · rw [if_pos hpos] at h
        cases hli : lose_influence s claimer with
        | none => simp only [hli] at h; exact Option.noConfusion h
        | some pr =>
          obtain ⟨t1, c⟩ := pr
          simp only [hli] at h
          cases hel : handle_player_elimination shuffle t1 claimer with
          | none => simp only [hel] at h; exact Option.noConfusion h
          | some r4 =>
            obtain ⟨e1, ge, nxp, t2⟩ := r4
            simp only [hel] at h
            injection h with h
            simp only [Prod.mk.injEq] at h
            obtain ⟨-, hge, -, -, h5⟩ := h
            subst h5
            subst hge
            intro q dq2 hq
            have hnd1 : (t1.players.map Prod.fst).Nodup := by
              rw [lose_influence_keys s claimer t1 c hli]
              exact hnd
            have hq1 := elimination_no_end_entry shuffle t1 claimer e1 nxp _ hnd1 hel q dq2 hq
            exact lose_entry_coins s claimer t1 c hli q dq2 hq1
      · rw [if_neg hpos] at h
        injection h with h
        simp only [Prod.mk.injEq] at h
        obtain ⟨-, -, -, -, h5⟩ := h
        subst h5
        intro q dq2 hq
        exact ⟨dq2, hq, rfl⟩

set_option maxHeartbeats 800000 in
/-- A steal whose block is defeated by a challenge — any blocker (the
target included), any hand sizes, the blocker's elimination included —
with the target still in the game and alive afterwards: the transfer is
exactly `min 2 target.coins`, taken from the target's untouched balance. -/
theorem steal_block_defeated_spec (shuffle : List Card → List Card)
    (present : Nat → Bool) (s : GameState) (actor target blocker ch : Nat)
    (el nx : Option Nat) (s2 : GameState) (dt da dt2 : PlayerData)
    (r : Option Reject) (s3 : GameState)
    (hpres : ∀ p, present p = true)
    (hnd : (s.players.map Prod.fst).Nodup)
    (hturn : s.current_player = some actor)
    (ht : lookupP s.players target = some dt) (htc : dt.cards ≠ [])
    (hne : actor ≠ target) (ha : lookupP s.players actor = some da)
    (h10 : da.coins < 10) (hc1 : 1 ≤ dt.coins)
    (hbc : handle_block_challenge shuffle s blocker ch [Card.Captain, Card.Ambassador]
      = some (false, false, el, nx, s2))
    (ht2 : lookupP s2.players target = some dt2) (htl2 : dt2.cards ≠ [])
    (h : steal shuffle present s actor target (DualWindow.block blocker (some ch))
      = some (r, s3)) :
    r = none ∧
    coinsOf s3 actor = some (da.coins + min 2 dt.coins) ∧
    coinsOf s3 target = some (dt.coins - min 2 dt.coins) ∧
    (0 ≤ dt.coins → 0 ≤ dt.coins - min 2 dt.coins) := by
  have hpc := handle_block_challenge_entry_coins shuffle s blocker ch
    [Card.Captain, Card.Ambassador] false el nx s2 hnd hbc
  obtain ⟨dt1, hdt1, hdt1c⟩ := hpc target dt2 ht2
  have hdtc : dt2.coins = dt.coins := by
    rw [ht] at hdt1
    injection hdt1 with he
    rw [hdt1c, ← he]
  unfold steal at h
  rw [if_neg (show ¬s.current_player ≠ some actor by simp [hturn])] at h
  simp only [ht, ha] at h
  rw [if_neg (by simp [List.isEmpty_iff, htc])] at h
  rw [if_neg hne] at h
  rw [if_neg (by omega)] at h
  rw [if_neg (by omega)] at h
  simp only [hbc] at h
  rw [if_neg (by simp : ¬(false = true))] at h
  rw [if_neg (by simp : ¬(false = true))] at h
  simp only [ht2] at h
  rw [if_pos (List.length_pos.mpr htl2)] at h
  unfold steal_transfer at h
  simp only [ht2] at h
  cases ha2 : lookupP s2.players actor with
  | none => simp only [ha2] at h; exact Option.noConfusion h
  | some da2 =>
    simp only [ha2] at h
    obtain ⟨da1, hda1, hda1c⟩ := hpc actor da2 ha2
    have hdac : da2.coins = da.coins := by
      rw [ha] at hda1
      injection hda1 with he
      rw [hda1c, ← he]
    obtain ⟨hr, hp3, -, -, -⟩ := finish_turn_allPresent present hpres _ actor r s3 h
    refine ⟨hr, ?_, ?_, by intro h0; omega⟩
    · unfold coinsOf
      rw [hp3]
      rw [lookupP_updateP_ne _ _ _ _ hne]
      rw [lookupP_updateP_self, ha2]
      simp only [Option.map_some']
      rw [hdac, hdtc]
    · unfold coinsOf
      rw [hp3]
      rw [lookupP_updateP_self]
      rw [lookupP_updateP_ne _ _ _ _ (fun he => hne he.symm)]
      rw [ht2]
      simp only [Option.map_some']
      rw [hdtc]

set_option maxHeartbeats 800000 in
/-- A steal whose direct challenge is defeated (the actor proves Captain) —
any challenger (the target included), any hand sizes, the challenger's
elimination included — with the target still in the game and alive
afterwards: the transfer is exactly `min 2 target.coins`. -/
theorem steal_challenge_defeated_spec (shuffle : List Card → List Card)
    (present : Nat → Bool) (s : GameState) (actor target ch : Nat)
    (el nx : Option Nat) (s2 : GameState) (dt da dt2 : PlayerData)
    (r : Option Reject) (s3 : GameState)
    (hpres : ∀ p, present p = true)
    (hnd : (s.players.map Prod.fst).Nodup)
    (hturn : s.current_player = some actor)
    (ht : lookupP s.players target = some dt) (htc : dt.cards ≠ [])
    (hne : actor ≠ target) (ha : lookupP s.players actor = some da)
    (h10 : da.coins < 10) (hc1 : 1 ≤ dt.coins)
    (hcc : handle_challenge shuffle s actor ch Card.Captain
      = some (true, false, el, nx, s2))
    (ht2 : lookupP s2.players target = some dt2) (htl2 : dt2.cards ≠ [])
    (h : steal shuffle present s actor target (DualWindow.challenge ch)
      = some (r, s3)) :
    r = none ∧
    coinsOf s3 actor = some (da.coins + min 2 dt.coins) ∧
    coinsOf s3 target = some (dt.coins - min 2 dt.coins) ∧
    (0 ≤ dt.coins → 0 ≤ dt.coins - min 2 dt.coins) := by
  have hpc := handle_challenge_entry_coins shuffle s actor ch
    Card.Captain true el nx s2 hnd hcc
  obtain ⟨dt1, hdt1, hdt1c⟩ := hpc target dt2 ht2
  have hdtc : dt2.coins = dt.coins := by
    rw [ht] at hdt1
    injection hdt1 with he
    rw [hdt1c, ← he]
  unfold steal at h
  rw [if_neg (show ¬s.current_player ≠ some actor by simp [hturn])] at h
  simp only [ht, ha] at h
  rw [if_neg (by simp [List.isEmpty_iff, htc])] at h
  rw [if_neg hne] at h
  rw [if_neg (by omega)] at h
  rw [if_neg (by omega)] at h
  simp only [hcc] at h
  rw [if_neg (by simp : ¬(false = true))] at h
  simp only [if_true] at h
  simp only [ht2] at h
  rw [if_pos (List.length_pos.mpr htl2)] at h
  unfold steal_transfer at h
  simp only [ht2] at h
  cases ha2 : lookupP s2.players actor with
  | none => simp only [ha2] at h; exact Option.noConfusion h
  | some da2 =>
    simp only [ha2] at h
    obtain ⟨da1, hda1, hda1c⟩ := hpc actor da2 ha2
    have hdac : da2.coins = da.coins := by
      rw [ha] at hda1
      injection hda1 with he
      rw [hda1c, ← he]
    obtain ⟨hr, hp3, -, -, -⟩ := finish_turn_allPresent present hpres _ actor r s3 h
    refine ⟨hr, ?_, ?_, by intro h0; omega⟩
    · unfold coinsOf
      rw [hp3]
      rw [lookupP_updateP_ne _ _ _ _ hne]
      rw [lookupP_updateP_self, ha2]
      simp only [Option.map_some']
      rw [hdac, hdtc]
    · unfold coinsOf
      rw [hp3]
      rw [lookupP_updateP_self]
      rw [lookupP_updateP_ne _ _ _ _ (fun he => hne he.symm)]
      rw [ht2]
      simp only [Option.map_some']
      rw [hdtc]


/-- The target blocks their own robbery claiming Captain/Ambassador, is
challenged, and the block is defeated: the target survives on one card. -/
def gBT : GameState :=
  { players := [(1, ⟨[Card.Duke, Card.Assassin], 3⟩), (2, ⟨[Card.Contessa, Card.Assassin], 2⟩)],
    court_deck := freshDeck.drop 4, discarded_cards := [],
    game_started := true, current_player := some 1 }

/-- `gBT` after the defeated block (target lost the Assassin). -/
def gBTmid : GameState :=
  { players := [(1, ⟨[Card.Duke, Card.Assassin], 3⟩), (2, ⟨[Card.Contessa], 2⟩)],
    court_deck := freshDeck.drop 4, discarded_cards := [Card.Assassin],
    game_started := true, current_player := some 1 }

/-- `gBT` after the whole steal: the two coins moved, the turn advanced. -/
def gBTafter : GameState :=
  { players := [(1, ⟨[Card.Duke, Card.Assassin], 5⟩), (2, ⟨[Card.Contessa], 0⟩)],
    court_deck := freshDeck.drop 4, discarded_cards := [Card.Assassin],
    game_started := true, current_player := some 2 }

/-- The target challenges the actor's Captain claim and loses: the target
survives on one card while the steal still proceeds. -/
def gCT : GameState :=
  { players := [(1, ⟨[Card.Captain, Card.Assassin], 3⟩), (2, ⟨[Card.Contessa, Card.Captain], 2⟩)],
    court_deck := freshDeck.drop 4, discarded_cards := [],
    game_started := true, current_player := some 1 }

/-- `gCT` after the upheld claim: the actor's Captain was swapped back
(bottom-insert + redraw), the target lost their Captain. -/
def gCTmid : GameState :=
  { players := [(1, ⟨[Card.Assassin, Card.Ambassador], 3⟩), (2, ⟨[Card.Contessa], 2⟩)],
    court_deck := [Card.Captain, Card.Ambassador, Card.Duke, Card.Assassin, Card.Contessa,
                   Card.Captain, Card.Ambassador, Card.Duke, Card.Assassin, Card.Contessa,
                   Card.Captain],
    discarded_cards := [Card.Captain], game_started := true, current_player := some 1 }

/-- `gCT` after the whole steal: the two coins moved, the turn advanced. -/
def gCTafter : GameState :=
  { players := [(1, ⟨[Card.Assassin, Card.Ambassador], 5⟩), (2, ⟨[Card.Contessa], 0⟩)],
    court_deck := [Card.Captain, Card.Ambassador, Card.Duke, Card.Assassin, Card.Contessa,
                   Card.Captain, Card.Ambassador, Card.Duke, Card.Assassin, Card.Contessa,
                   Card.Captain],
    discarded_cards := [Card.Captain], game_started := true, current_player := some 2 }

/-- C8: Steal amount — on every successful steal path (no response within
the window; a block defeated by challenge, for any blocker including the
target and for any hand size, the blocker's elimination included; a direct
challenge defeated, for any challenger including the target, the
challenger's elimination included) with the target still in the game and
alive, exactly `min 2 target.coins` coins move: the actor's balance
increases by that amount, the target's balance decreases by the same
amount, and a non-negative target balance stays non-negative. -/
theorem claim8_steal_amount :
    (∀ (shuffle : List Card → List Card) (present : Nat → Bool) (s : GameState)
        (actor target : Nat) (dt da : PlayerData) (nxt : Nat),
        s.current_player = some actor →
        lookupP s.players target = some dt → dt.cards ≠ [] → actor ≠ target →
        lookupP s.players actor = some da → da.coins < 10 → 1 ≤ dt.coins →
        get_next_player
          { s with players := updateP (updateP s.players actor (fun d => { d with coins := d.coins + min 2 dt.coins })) target (fun d => { d with coins := d.coins - min 2 dt.coins }) }
          actor = some nxt →
        present nxt = true →
        steal shuffle present s actor target DualWindow.noResponse
          = some (none,
              { s with
                  players := updateP (updateP s.players actor (fun d => { d with coins := d.coins + min 2 dt.coins })) target (fun d => { d with coins := d.coins - min 2 dt.coins }),
                  current_player := some nxt }) ∧
        (lookupP (updateP (updateP s.players actor (fun d => { d with coins := d.coins + min 2 dt.coins })) target (fun d => { d with coins := d.coins - min 2 dt.coins })) target).map PlayerData.coins
          = some (dt.coins - min 2 dt.coins) ∧
        (lookupP (updateP (updateP s.players actor (fun d => { d with coins := d.coins + min 2 dt.coins })) target (fun d => { d with coins := d.coins - min 2 dt.coins })) actor).map PlayerData.coins
          = some (da.coins + min 2 dt.coins) ∧
        (0 ≤ dt.coins → 0 ≤ dt.coins - min 2 dt.coins)) ∧
    (∀ (shuffle : List Card → List Card) (present : Nat → Bool) (s : GameState)
        (actor target blocker ch : Nat) (el nx : Option Nat) (s2 : GameState)
        (dt da dt2 : PlayerData) (r : Option Reject) (s3 : GameState),
        (∀ p, present p = true) → (s.players.map Prod.fst).Nodup →
        s.current_player = some actor →
        lookupP s.players target = some dt → dt.cards ≠ [] → actor ≠ target →
        lookupP s.players actor = some da → da.coins < 10 → 1 ≤ dt.coins →
        handle_block_challenge shuffle s blocker ch [Card.Captain, Card.Ambassador]
          = some (false, false, el, nx, s2) →
        lookupP s2.players target = some dt2 → dt2.cards ≠ [] →
        steal shuffle present s actor target (DualWindow.block blocker (some ch))
          = some (r, s3) →
        r = none ∧
        coinsOf s3 actor = some (da.coins + min 2 dt.coins) ∧
        coinsOf s3 target = some (dt.coins - min 2 dt.coins) ∧
        (0 ≤ dt.coins → 0 ≤ dt.coins - min 2 dt.coins)) ∧
    (∀ (shuffle : List Card → List Card) (present : Nat → Bool) (s : GameState)
        (actor target ch : Nat) (el nx : Option Nat) (s2 : GameState)
        (dt da dt2 : PlayerData) (r : Option Reject) (s3 : GameState),
        (∀ p, present p = true) → (s.players.map Prod.fst).Nodup →
        s.current_player = some actor →
        lookupP s.players target = some dt → dt.cards ≠ [] → actor ≠ target →
        lookupP s.players actor = some da → da.coins < 10 → 1 ≤ dt.coins →
        handle_challenge shuffle s actor ch Card.Captain
          = some (true, false, el, nx, s2) →
        lookupP s2.players target = some dt2 → dt2.cards ≠ [] →
        steal shuffle present s actor target (DualWindow.challenge ch)
          = some (r, s3) →
        r = none ∧
        coinsOf s3 actor = some (da.coins + min 2 dt.coins) ∧
        coinsOf s3 target = some (dt.coins - min 2 dt.coins) ∧
        (0 ≤ dt.coins → 0 ≤ dt.coins - min 2 dt.coins)) :=
  ⟨fun sh present s actor target dt da nxt hturn ht htc hne ha h10 hc1 hn hp =>
      steal_noresponse_spec sh present s actor target dt da nxt
        hturn ht htc hne ha h10 hc1 hn hp,
   fun sh present s actor target blocker ch el nx s2 dt da dt2 r s3
        hpres hnd hturn ht htc hne ha h10 hc1 hbc ht2 htl2 h =>
      steal_block_defeated_spec sh present s actor target blocker ch el nx s2
        dt da dt2 r s3 hpres hnd hturn ht htc hne ha h10 hc1 hbc ht2 htl2 h,
   fun sh present s actor target ch el nx s2 dt da dt2 r s3
        hpres hnd hturn ht htc hne ha h10 hc1 hcc ht2 htl2 h =>
      steal_challenge_defeated_spec sh present s actor target ch el nx s2
        dt da dt2 r s3 hpres hnd hturn ht htc hne ha h10 hc1 hcc ht2 htl2 h⟩

set_option maxHeartbeats 1000000 in
/-- Closed instantiation of `claim8_steal_amount`: a no-response steal on
`g2`; a steal whose block by the *target themselves* is defeated (`gBT` —
the target survives on one card and still pays); and a steal whose direct
challenge by the target is defeated (`gCT`). -/
theorem claim8_witness :
    (steal id allPresent g2 1 2 DualWindow.noResponse = some (none, g2afterSteal) ∧
      (lookupP g2afterSteal.players 2).map PlayerData.coins = some ((2 : Int) - min 2 2) ∧
      (lookupP g2afterSteal.players 1).map PlayerData.coins = some ((3 : Int) + min 2 2) ∧
      (0 ≤ (2 : Int) → 0 ≤ (2 : Int) - min 2 2)) ∧
    (handle_block_challenge id gBT 2 1 [Card.Captain, Card.Ambassador]
        = some (false, false, none, none, gBTmid) ∧
      lookupP gBTmid.players 2 = some ⟨[Card.Contessa], 2⟩ ∧
      steal id allPresent gBT 1 2 (DualWindow.block 2 (some 1)) = some (none, gBTafter) ∧
      ((none : Option Reject) = none ∧
        coinsOf gBTafter 1 = some ((3 : Int) + min 2 2) ∧
        coinsOf gBTafter 2 = some ((2 : Int) - min 2 2) ∧
        (0 ≤ (2 : Int) → 0 ≤ (2 : Int) - min 2 2))) ∧
    (handle_challenge id gCT 1 2 Card.Captain
        = some (true, false, none, none, gCTmid) ∧
      lookupP gCTmid.players 2 = some ⟨[Card.Contessa], 2⟩ ∧
      steal id allPresent gCT 1 2 (DualWindow.challenge 2) = some (none, gCTafter) ∧
      ((none : Option Reject) = none ∧
        coinsOf gCTafter 1 = some ((3 : Int) + min 2 2) ∧
        coinsOf gCTafter 2 = some ((2 : Int) - min 2 2) ∧
        (0 ≤ (2 : Int) → 0 ≤ (2 : Int) - min 2 2))) :=
  ⟨claim8_steal_amount.1 id allPresent g2 1 2
      ⟨[Card.Contessa, Card.Captain], 2⟩ ⟨[Card.Duke, Card.Assassin], 3⟩ 2
      rfl rfl (by decide) (by decide) rfl (by decide) (by decide) (by decide) rfl,
   ⟨by decide, by decide, by decide,
    claim8_steal_amount.2.1 id allPresent gBT 1 2 2 1 none none gBTmid
      ⟨[Card.Contessa, Card.Assassin], 2⟩ ⟨[Card.Duke, Card.Assassin], 3⟩
      ⟨[Card.Contessa], 2⟩ none gBTafter
      (fun p => rfl) (by decide) rfl (by decide) (by decide) (by decide) (by decide)
      (by decide) (by decide) (by decide) (by decide) (by decide) (by decide)⟩,
   ⟨by decide, by decide, by decide,
    claim8_steal_amount.2.2 id allPresent gCT 1 2 2 none none gCTmid
      ⟨[Card.Contessa, Card.Captain], 2⟩ ⟨[Card.Captain, Card.Assassin], 3⟩
      ⟨[Card.Contessa], 2⟩ none gCTafter
      (fun p => rfl) (by decide) rfl (by decide) (by decide) (by decide) (by decide)
      (by decide) (by decide) (by decide) (by decide) (by decide) (by decide)⟩⟩

theorem popTop_length (l l2 : List Card) (c : Card)
    (h : popTop l = some (c, l2)) : l2.length + 1 = l.length := by
  unfold popTop at h
  cases hg : l.getLast? with
  | none => rw [hg] at h; exact Option.noConfusion h
  | some x =>
    rw [hg] at h
    injection h with h
    injection h with h1 h2
    have hne : l ≠ [] := by
      intro he; rw [he] at hg; simp at hg
    have : 1 ≤ l.length := List.length_pos.mpr hne
    rw [← h2]
    simp [List.length_dropLast]
    omega

theorem select_loop_spec (n k : Nat) :
    ∀ (picks acc sel : List Nat), select_loop n k picks acc = some sel →
      acc.Nodup → (∀ i ∈ acc, i < n) → acc.length ≤ k →
      sel.Nodup ∧ (∀ i ∈ sel, i < n) ∧ sel.length = k := by
  intro picks
  induction picks with
  | nil =>
    intro acc sel h hnd hb hle
    unfold select_loop at h
    split at h
    · injection h with h
      subst h
      exact ⟨hnd, hb, by omega⟩
    · exact Option.noConfusion h
  | cons i rest ih =>
    intro acc sel h hnd hb hle
    unfold select_loop at h
    split at h
    · injection h with h
      subst h
      exact ⟨hnd, hb, by omega⟩
    · rename_i hlt
      split at h
      · exact ih acc sel h hnd hb hle
      · split at h
        · exact Option.noConfusion h
        · rename_i hmem hbnd
          refine ih (acc ++ [i]) sel h ?_ ?_ ?_
          · simp [List.nodup_append, hnd, hmem]
          · intro j hj
            rcases List.mem_append.mp hj with hj | hj
            · exact hb j hj
            · simp at hj
              subst hj
              omega
          · simp
            omega

theorem filterMap_get_length (sel : List Nat) (l : List Card)
    (hb : ∀ i ∈ sel, i < l.length) :
    (sel.filterMap (fun i => l.get? i)).length = sel.length := by
  induction sel with
  | nil => rfl
  | cons i rest ih =>
    have hi : i < l.length := hb i (by simp)
    cases hx : l.get? i with
    | none =>
      have := List.get?_eq_none.mp hx
      omega
    | some c =>
      simp only [List.filterMap_cons, hx]
      simp only [List.length_cons]
      rw [ih (fun j hj => hb j (by simp [hj]))]

theorem countP_range_mem (n : Nat) (sel : List Nat) (hnd : sel.Nodup)
    (hb : ∀ i ∈ sel, i < n) :
    (List.range n).countP (fun i => decide (i ∈ sel)) = sel.length := by
  rw [List.countP_eq_length_filter]
  have hperm : ((List.range n).filter (fun i => decide (i ∈ sel))).Perm sel := by
    apply List.perm_of_nodup_nodup_toFinset_eq
    · exact (List.nodup_range n).filter _
    · exact hnd
    · ext x
      simp [List.mem_filter, List.mem_range]
      intro hx
      exact hb x hx
  exact hperm.length_eq

theorem countP_mem_split (sel : List Nat) :
    ∀ l : List Nat, l.countP (fun i => decide (i ∉ sel))
      + l.countP (fun i => decide (i ∈ sel)) = l.length := by
  intro l
  induction l with
  | nil => rfl
  | cons x t ih =>
    simp [List.countP_cons] at ih ⊢
    by_cases hx : x ∈ sel <;> simp [hx] <;> omega

theorem enum_filter_not_mem_length (l : List Card) (sel : List Nat)
    (hnd : sel.Nodup) (hb : ∀ i ∈ sel, i < l.length) :
    ((l.enum.filter (fun ic => decide (ic.1 ∉ sel))).map Prod.snd).length
      = l.length - sel.length := by
  rw [List.length_map]
  rw [← List.countP_eq_length_filter]
  have h1 : l.enum.countP (fun ic => decide (ic.1 ∉ sel))
      = (l.enum.map Prod.fst).countP (fun i => decide (i ∉ sel)) := by
    rw [List.countP_map]
    rfl
  rw [h1, List.enum_map_fst]
  have h2 := countP_mem_split sel (List.range l.length)
  have h3 := countP_range_mem l.length sel hnd hb
  simp at h2 h3 ⊢
  omega

set_option maxHeartbeats 1000000 in
/-- The exchange effect (no challenge raised, everyone on the platform) is
card-count neutral: draw 2, keep as many as initially held, return the
rest — whatever the completed command returns, the conserved card sum is
exactly what it was. -/
theorem exchange_noresponse_cardSum (shuffle rshuffle : List Card → List Card)
    (present : Nat → Bool) (s : GameState) (actor : Nat) (dmOkActor : Bool)
    (picks : List Nat) (rj : Option Reject) (s2 : GameState)
    (hpres : ∀ p, present p = true) (hr : ∀ l, (rshuffle l).Perm l)
    (h : exchange shuffle rshuffle present s actor ChallengeWindow.noResponse
      dmOkActor picks = some (rj, s2)) :
    cardSum s2 = cardSum s := by
  unfold exchange at h
  dsimp only at h
  split at h
  · injection h with h
    injection h with h1 h2
    rw [← h2]
  · split at h
    · exact Option.noConfusion h
    · rename_i da hda
      split at h
      · injection h with h
        injection h with h1 h2
        rw [← h2]
      · split at h
        · obtain ⟨-, hp, hd, hdis, -⟩ := finish_turn_allPresent present hpres _ _ _ _ h
          rw [cardSum_def, cardSum_def, hp, hd, hdis]
        · rename_i hdeck
          have hne1 : s.court_deck ≠ [] := by
            intro he
            rw [he] at hdeck
            simp at hdeck
          obtain ⟨c1, deck1, hp1, hl1⟩ := popTop_some s.court_deck hne1
          have hne2 : deck1 ≠ [] := by
            intro he
            rw [he] at hl1
            simp at hl1
            omega
          obtain ⟨c2, deck2, hp2, hl2⟩ := popTop_some deck1 hne2
          simp only [hp1, hp2, hda] at h
          split at h
          · obtain ⟨-, hp, hd, hdis, -⟩ :=
              finish_turn_allPresent present hpres _ _ _ _ h
            rw [cardSum_def, cardSum_def, hp, hd, hdis]
            simp
            omega
          · split at h
            · exact Option.noConfusion h
            · rename_i sel hsel
              obtain ⟨hnd, hb, hlen⟩ := select_loop_spec _ _ picks [] sel hsel
                (by simp) (by simp) (by simp)
              have hchosen := filterMap_get_length sel _ hb
              have hunch := enum_filter_not_mem_length
                (rshuffle (da.cards ++ [c1, c2])) sel hnd hb
              have hn : (rshuffle (da.cards ++ [c1, c2])).length
                  = da.cards.length + 2 := by
                rw [(hr _).length_eq]
                simp
              obtain ⟨-, hp, hd, hdis, -⟩ :=
                finish_turn_allPresent present hpres _ _ _ _ h
              have hupd := handSum_updateP s.players actor
                (fun d0 => { d0 with cards := sel.filterMap (fun i => (rshuffle (da.cards ++ [c1, c2])).get? i) })
                da hda
              have e1 : (sel.filterMap
                  (fun i => (rshuffle (da.cards ++ [c1, c2])).get? i)).length
                  = da.cards.length := by
                rw [hchosen, hlen]
              have e2 : handSum (updateP s.players actor
                  (fun d0 => { d0 with cards := sel.filterMap (fun i => (rshuffle (da.cards ++ [c1, c2])).get? i) }))
                  = handSum s.players := by
                simp only [] at hupd
                omega
              rw [cardSum_def, cardSum_def, hp, hd, hdis, e2]
              simp only [List.length_append]
              omega

/-- A mid-game departure handled by `advance_turn` (removal does not end
the game, and the player the recursion then lands on is present): the
departed player is deleted together with their whole hand — the conserved
card sum drops by the size of that hand. -/
theorem advance_turn_departure_removal (present : Nat → Bool) (fuel : Nat)
    (s : GameState) (cur cp : Nat) (dcp : PlayerData) (qd : Nat × PlayerData)
    (hcur : (lookupP s.players cur).isSome = true)
    (hn : get_next_player s cur = some cp)
    (hpcp : present cp = false)
    (hcp : lookupP s.players cp = some dcp)
    (hw : check_win_condition
      { s with players := removeP s.players cp, current_player := some cp } = none)
    (hcpgone : lookupP (removeP s.players cp) cp = none)
    (hq : (removeP s.players cp).head? = some qd)
    (hpq : present qd.1 = true) :
    advance_turn present (fuel + 2) s cur
      = some { s with players := removeP s.players cp, current_player := some qd.1 } ∧
    cardSum { s with players := removeP s.players cp, current_player := some qd.1 }
      + dcp.cards.length = cardSum s := by
  constructor
  · show advance_turn present (fuel + 1 + 1) s cur = _
    unfold advance_turn
    simp only [hcur, if_true, hn]
    rw [hpcp]
    rw [if_neg (by simp : ¬(false = true))]
    rw [show check_win_condition
        { s with players := removeP s.players cp, current_player := some cp } = none from hw]
    unfold advance_turn
    simp only [hcpgone]
    simp only [Option.isSome_none]
    rw [if_neg (by simp : ¬(false = true))]
    rw [List.head?_map, hq]
    simp only [Option.map_some']
    rw [hpq]
    simp
  · have := handSum_removeP s.players cp dcp hcp
    simp [cardSum_def]
    omega

/-! ## Lemmas about `start` -/

theorem deal_loop_spec :
    ∀ (ps : Roster) (deck deck2 : List Card) (ps2 : Roster),
      deal_loop deck ps = some (deck2, ps2) →
      deck2.length + 2 * ps.length = deck.length ∧
      ps2.map Prod.fst = ps.map Prod.fst ∧
      (∀ pd ∈ ps2, pd.2.cards.length = 2) := by
  intro ps
  induction ps with
  | nil =>
    intro deck deck2 ps2 h
    unfold deal_loop at h
    injection h with h
    injection h with h1 h2
    subst h1
    subst h2
    exact ⟨by simp, rfl, by simp⟩
  | cons hd rest ih =>
    intro deck deck2 ps2 h
    obtain ⟨p, d⟩ := hd
    unfold deal_loop at h
    cases hp1 : popTop deck with
    | none => rw [hp1] at h; exact Option.noConfusion h
    | some pr1 =>
      obtain ⟨c1, deck1⟩ := pr1
      rw [hp1] at h
      cases hp2 : popTop deck1 with
      | none =>
        simp only [hp2] at h
        exact Option.noConfusion h
      | some pr2 =>
        obtain ⟨c2, deckB⟩ := pr2
        simp only [hp2] at h
        cases hrec : deal_loop deckB rest with
        | none =>
          simp only [hrec] at h
          exact Option.noConfusion h
        | some out =>
          obtain ⟨deckF, restF⟩ := out
          simp only [hrec] at h
          injection h with h
          injection h with h1 h2
          subst h1
          subst h2
          obtain ⟨ihl, ihk, ihc⟩ := ih deckB deckF restF hrec
          have hl1 := popTop_length _ _ _ hp1
          have hl2 := popTop_length _ _ _ hp2
          refine ⟨by simp; omega, by simp [ihk], ?_⟩
          intro pd hpd
          rcases List.mem_cons.mp hpd with hpd | hpd
          · subst hpd; rfl
          · exact ihc pd hpd

theorem deal_loop_total :
    ∀ (ps : Roster) (deck : List Card), 2 * ps.length ≤ deck.length →
      ∃ out, deal_loop deck ps = some out := by
  intro ps
  induction ps with
  | nil => intro deck _; exact ⟨(deck, []), rfl⟩
  | cons hd rest ih =>
    intro deck hlen
    obtain ⟨p, d⟩ := hd
    have hne1 : deck ≠ [] := by
      intro he
      rw [he] at hlen
      simp at hlen
    obtain ⟨c1, deck1, hp1, hl1⟩ := popTop_some deck hne1
    have hne2 : deck1 ≠ [] := by
      intro he
      rw [he] at hl1
      simp at hl1 hlen
      omega
    obtain ⟨c2, deck2, hp2, hl2⟩ := popTop_some deck1 hne2
    have hrest : 2 * rest.length ≤ deck2.length := by
      simp at hlen
      omega
    obtain ⟨out, hout⟩ := ih deck2 hrest
    refine ⟨(out.1, (p, { d with cards := [c1, c2] }) :: out.2), ?_⟩
    unfold deal_loop
    simp only [hp1, hp2, hout]

theorem lookupP_cons_ne (q : Nat) (d : PlayerData) (rest : Roster) (p : Nat)
    (h : q ≠ p) : lookupP ((q, d) :: rest) p = lookupP rest p := by
  simp only [lookupP]
  rw [if_neg h]

theorem filterMap_keys_eq :
    ∀ ps : Roster, (ps.map Prod.fst).Nodup →
      (ps.map Prod.fst).filterMap
        (fun p => (lookupP ps p).map (fun d => (p, d))) = ps := by
  intro ps
  induction ps with
  | nil => intro _; rfl
  | cons hd rest ih =>
    intro hnd
    obtain ⟨q, d⟩ := hd
    rw [List.map_cons] at hnd ⊢
    have hq : q ∉ rest.map Prod.fst := (List.nodup_cons.mp hnd).1
    have hrest : (rest.map Prod.fst).Nodup := (List.nodup_cons.mp hnd).2
    simp only [List.filterMap_cons]
    have hself : lookupP ((q, d) :: rest) q = some d := by
      unfold lookupP
      simp
    rw [hself]
    simp only [Option.map_some']
    have hcongr : (rest.map Prod.fst).filterMap
        (fun p => (lookupP ((q, d) :: rest) p).map (fun d0 => (p, d0)))
        = (rest.map Prod.fst).filterMap
          (fun p => (lookupP rest p).map (fun d0 => (p, d0))) := by
      apply List.filterMap_congr
      intro p hp
      have hpq : q ≠ p := by
        intro he
        subst he
        exact hq hp
      rw [lookupP_cons_ne q d rest p hpq]
    rw [hcongr, ih hrest]

theorem handSum_const2 :
    ∀ l : Roster, (∀ pd ∈ l, pd.2.cards.length = 2) → handSum l = 2 * l.length := by
  intro l
  induction l with
  | nil => intro _; rfl
  | cons hd rest ih =>
    intro hall
    have h1 : hd.2.cards.length = 2 := hall hd (by simp)
    have h2 := ih (fun pd hpd => hall pd (by simp [hpd]))
    simp [handSum] at h2 ⊢
    omega

theorem lookupP_filter_none (f : Nat → Bool) (p : Nat) :
    ∀ l : Roster, f p = false → lookupP (l.filter (fun pd => f pd.1)) p = none := by
  intro l hfp
  induction l with
  | nil => rfl
  | cons hd rest ih =>
    by_cases hf : f hd.1
    · rw [List.filter_cons_of_pos (by simpa using hf)]
      obtain ⟨q, d⟩ := hd
      unfold lookupP
      have : q ≠ p := by
        intro he
        subst he
        simp at hf
        rw [hf] at hfp
        exact Bool.noConfusion hfp
      rw [if_neg this]
      exact ih
    · rw [List.filter_cons_of_neg (by simpa using hf)]
      exact ih

theorem filter_key_length (ps : Roster) (f : Nat → Bool) :
    (ps.filter (fun pd => f pd.1)).length = ((ps.map Prod.fst).filter f).length := by
  rw [← List.countP_eq_length_filter, ← List.countP_eq_length_filter, List.countP_map]
  rfl

theorem countP_bool_split (f : Nat → Bool) :
    ∀ l : List Nat, (l.filter f).length + (l.filter (fun p => !f p)).length = l.length := by
  intro l
  induction l with
  | nil => rfl
  | cons x t ih =>
    by_cases hx : f x <;> simp [List.filter_cons, hx] <;> omega

set_option maxHeartbeats 1000000 in
/-- Behavior of `start`: the deck is dealt for every joiner (two cards
each) before DM delivery is attempted; DM-failed players are then removed
with their cards, the roster keeps exactly the deliverable players, and
the game is started iff at least two of them remain. -/
theorem start_spec (shuffle : List Card → List Card) (pshuffle : List Nat → List Nat)
    (dmOk : Nat → Bool) (joiners : List Nat) (s : GameState)
    (hns : s.game_started = false)
    (h2 : 2 ≤ joiners.length) (h7 : joiners.length ≤ 7) (hnd : joiners.Nodup)
    (hs : ∀ l, (shuffle l).Perm l) (hp : ∀ l : List Nat, (pshuffle l).Perm l) :
    (start shuffle pshuffle dmOk joiners s).court_deck.length = 15 - 2 * joiners.length ∧
    (∀ p, dmOk p = false → lookupP (start shuffle pshuffle dmOk joiners s).players p = none) ∧
    (start shuffle pshuffle dmOk joiners s).players.length
      = (joiners.filter dmOk).length ∧
    ((start shuffle pshuffle dmOk joiners s).game_started = true
      ↔ 2 ≤ (joiners.filter dmOk).length) ∧
    cardSum (start shuffle pshuffle dmOk joiners s)
      + 2 * (joiners.filter (fun p => !dmOk p)).length = 15 := by
  unfold start
  rw [if_neg (by simp [hns])]
  dsimp only
  rw [if_neg (show ¬(List.map (fun p => ((p, ⟨[], 2⟩) : Nat × PlayerData)) joiners).length < 2 by simp; omega)]
  have hdl15 : (shuffle freshDeck).length = 15 := (hs freshDeck).length_eq
  obtain ⟨out, hdeal⟩ := deal_loop_total
    (joiners.map (fun p => ((p, ⟨[], 2⟩) : Nat × PlayerData))) (shuffle freshDeck)
    (by simp [hdl15]; omega)
  obtain ⟨deckF, psF⟩ := out
  have hdc : deal_cards
      { players := joiners.map (fun p => ((p, ⟨[], 2⟩) : Nat × PlayerData)),
        court_deck := shuffle freshDeck, discarded_cards := [],
        game_started := true, current_player := s.current_player }
      = some { players := psF, court_deck := deckF, discarded_cards := [],
               game_started := true, current_player := s.current_player } := by
    unfold deal_cards
    rw [if_neg (by simp [hdl15]; omega)]
    simp only [hdeal]
  rw [hdc]
  dsimp only
  obtain ⟨hdlen, hkeys, hcards2⟩ := deal_loop_spec _ _ _ _ hdeal
  have hkeysj : psF.map Prod.fst = joiners := by
    rw [hkeys, List.map_map]
    rw [show (Prod.fst ∘ fun p : Nat => ((p, ⟨[], 2⟩) : Nat × PlayerData)) = id from rfl]
    exact List.map_id _
  rw [hkeysj]
  have hFMeq := filterMap_keys_eq psF (by rw [hkeysj]; exact hnd)
  have hRperm : (pshuffle joiners).filterMap
      (fun p => (lookupP psF p).map (fun d => (p, d))) |>.Perm psF := by
    have h1 := (hp joiners).filterMap (fun p => (lookupP psF p).map (fun d => (p, d)))
    rw [hkeysj] at hFMeq
    rw [hFMeq] at h1
    exact h1
  set F := List.filter (fun pd => dmOk pd.1)
      (List.filterMap (fun p => Option.map (fun d => (p, d)) (lookupP psF p)) (pshuffle joiners)) with hF
  have hfperm : F.Perm (psF.filter (fun pd => dmOk pd.1)) := hRperm.filter _
  have hflen : F.length = (joiners.filter dmOk).length := by
    rw [hfperm.length_eq, filter_key_length, hkeysj]
  have hmemF : ∀ pd ∈ F, pd.2.cards.length = 2 := by
    intro pd hpd
    have h1 : pd ∈ psF.filter (fun pd => dmOk pd.1) := hfperm.mem_iff.mp hpd
    exact hcards2 pd (List.mem_of_mem_filter h1)
  have hhsF : handSum F = 2 * F.length := handSum_const2 F hmemF
  have hnone : ∀ p, dmOk p = false → lookupP F p = none := by
    intro p hfp
    exact lookupP_filter_none dmOk p _ hfp
  have hdeckF : deckF.length = 15 - 2 * joiners.length := by
    simp [hdl15] at hdlen
    omega
  have hsplit := countP_bool_split dmOk joiners
  by_cases hk : F.length < 2
  · rw [if_pos hk]
    dsimp only
    refine ⟨hdeckF, fun p hf => hnone p hf, hflen, ?_, ?_⟩
    · simp
      omega
    · rw [cardSum_def]
      dsimp only
      rw [hhsF, hflen, hdeckF]
      simp
      omega
  · rw [if_neg hk]
    dsimp only
    refine ⟨hdeckF, fun p hf => hnone p hf, hflen, ?_, ?_⟩
    · simp
      omega
    · rw [cardSum_def]
      dsimp only
      rw [hhsF, hflen, hdeckF]
      simp
      omega

end Coup

namespace Coup

/-- A two-player table in which player 3 has already lost both cards; their
elimination leaves player 1 as sole survivor. -/
def gElimWin : GameState :=
  { players := [(1, ⟨[Card.Duke, Card.Assassin], 3⟩), (3, ⟨[], 5⟩)],
    court_deck := freshDeck.drop 4,
    discarded_cards := [Card.Contessa, Card.Captain],
    game_started := true, current_player := some 1 }

theorem check_win_iff (s : GameState) :
    (check_win_condition s).isSome = true
      ↔ (s.players.filter (fun pd => is_player_alive s pd.1)).length = 1 := by
  unfold check_win_condition
  cases hf : s.players.filter (fun pd => is_player_alive s pd.1) with
  | nil => simp
  | cons a t =>
    cases t with
    | nil => simp
    | cons b t2 => simp

set_option maxHeartbeats 400000 in
/-- **C2** (amended).  Win uniqueness holds: `check_win_condition` reports a
winner iff exactly one alive player remains in the roster.  The post-win
reset, however, is full only on the elimination path:
`handle_player_elimination`'s win branch empties the roster and the discard
pile and installs a freshly shuffled 15-card deck, while `advance_turn`'s
mid-game-departure win branch merely empties the roster and clears
`current_player` and `game_started`, leaving the court deck and the discard
pile exactly as they were (not restored to a fresh 15-card deck). -/
theorem claim2_win_uniqueness_and_reset :
    (∀ s : GameState, (check_win_condition s).isSome = true
      ↔ (s.players.filter (fun pd => is_player_alive s pd.1)).length = 1) ∧
    (∀ (shuffle : List Card → List Card) (s : GameState) (p : Nat) (d : PlayerData)
      (nxt w : Nat), (∀ l, (shuffle l).Perm l) →
      lookupP s.players p = some d → d.cards = [] →
      get_next_player s p = some nxt →
      check_win_condition { s with players := removeP s.players p } = some w →
      ∃ reset, handle_player_elimination shuffle s p = some (true, true, none, reset) ∧
        reset.players = [] ∧ reset.discarded_cards = [] ∧
        reset.game_started = false ∧ reset.current_player = none ∧
        reset.court_deck.Perm freshDeck ∧ reset.court_deck.length = 15) ∧
    (∀ (present : Nat → Bool) (fuel : Nat) (s : GameState) (cur cp w : Nat),
      (lookupP s.players cur).isSome = true →
      get_next_player s cur = some cp → present cp = false →
      check_win_condition { s with players := removeP s.players cp, current_player := some cp } = some w →
      advance_turn present (fuel + 1) s cur
        = some { players := [], court_deck := s.court_deck,
                 discarded_cards := s.discarded_cards,
                 game_started := false, current_player := none }) := by
  refine ⟨fun s => check_win_iff s, ?_, ?_⟩
  · intro shuffle s p d nxt w hperm hl he hn hw
    refine ⟨_, elimination_win shuffle s p d nxt w hl he hn hw, rfl, rfl, rfl, rfl,
      hperm freshDeck, ?_⟩
    have := (hperm freshDeck).length_eq
    simpa [freshDeck_length] using this
  · intro present fuel s cur cp w hcur hn hpcp hw
    unfold advance_turn
    simp only [hcur, if_true, hn]
    rw [hpcp]
    rw [if_neg (by simp : ¬(false = true))]
    rw [show check_win_condition
        { s with players := removeP s.players cp, current_player := some cp }
        = some w from hw]

/-- **C2** counterexample: in the two-player table `g2` (full 15-card
conservation holds), player 1 finishes a turn while player 2 has left the
platform; `advance_turn` removes player 2, player 1 wins, and the resulting
game-over state keeps the 11-card court deck of `g2` instead of restoring a
fresh 15-card deck. -/
theorem claim2_counterexample :
    cardSum g2 = 15 ∧
    advance_turn absent2 3 g2 1
      = some { players := [], court_deck := freshDeck.drop 4, discarded_cards := [],
               game_started := false, current_player := none } ∧
    (freshDeck.drop 4).length = 11 ∧ ¬((11 : Nat) = 15) := by
  refine ⟨by decide, by decide, by decide, by decide⟩

/-- Closed instantiation of `claim2_win_uniqueness_and_reset`: the win-check
iff at `g2`, the elimination-path full reset at `gElimWin` (player 3, empty
hand), and the departure-path partial reset at `g2` with player 2 absent. -/
theorem claim2_witness :
    ((check_win_condition g2).isSome = true
      ↔ (g2.players.filter (fun pd => is_player_alive g2 pd.1)).length = 1) ∧
    ((∀ l : List Card, (id l).Perm l) ∧
      lookupP gElimWin.players 3 = some ⟨[], 5⟩ ∧
      get_next_player gElimWin 3 = some 1 ∧
      check_win_condition { gElimWin with players := removeP gElimWin.players 3 }
        = some 1 ∧
      (∃ reset, handle_player_elimination id gElimWin 3 = some (true, true, none, reset) ∧
        reset.players = [] ∧ reset.discarded_cards = [] ∧
        reset.game_started = false ∧ reset.current_player = none ∧
        reset.court_deck.Perm freshDeck ∧ reset.court_deck.length = 15)) ∧
    ((lookupP g2.players 1).isSome = true ∧
      get_next_player g2 1 = some 2 ∧ absent2 2 = false ∧
      check_win_condition { g2 with players := removeP g2.players 2, current_player := some 2 } = some 1 ∧
      advance_turn absent2 3 g2 1
        = some { players := [], court_deck := g2.court_deck,
                 discarded_cards := g2.discarded_cards,
                 game_started := false, current_player := none }) := by
  refine ⟨claim2_win_uniqueness_and_reset.1 g2,
    ⟨fun l => List.Perm.refl l, by decide, by decide, by decide,
      claim2_win_uniqueness_and_reset.2.1 id gElimWin 3 ⟨[], 5⟩ 1 1
        (fun l => List.Perm.refl l) (by decide) rfl (by decide) (by decide)⟩,
    ⟨by decide, by decide, rfl,
      by decide,
      claim2_win_uniqueness_and_reset.2.2 absent2 2 g2 1 2 1
        (by decide) (by decide) rfl (by decide)⟩⟩

end Coup

namespace Coup

/-- The stable state `advance_turn` produces when player 2 departs the
3-player table `g3` mid-game: player 2 is deleted together with both cards
in their hand. -/
def g3afterDeparture : GameState :=
  { players := [(1, ⟨[Card.Duke, Card.Assassin], 3⟩),
                (3, ⟨[Card.Ambassador, Card.Duke], 2⟩)],
    court_deck := freshDeck.drop 6, discarded_cards := [],
    game_started := true, current_player := some 1 }

/-- `g2` after player 1 loses one influence: the last card of their hand
(the Assassin) moved to the discard pile. -/
def g2afterLose : GameState :=
  { players := [(1, ⟨[Card.Duke], 3⟩), (2, ⟨[Card.Contessa, Card.Captain], 2⟩)],
    court_deck := freshDeck.drop 4, discarded_cards := [Card.Assassin],
    game_started := true, current_player := some 1 }

/-- The full reset `handle_player_elimination` installs on the win path
when the shuffle is the identity. -/
def gWinReset : GameState :=
  { players := [], court_deck := freshDeck, discarded_cards := [],
    game_started := false, current_player := none }

/-- `g2` after player 1 exchanges, keeping slots 0 and 2 of
`hand ++ two drawn cards` (identity shuffles): the hand becomes
`[Duke, Ambassador]`, the two unchosen cards go back onto the deck, and the
turn passes to player 2. -/
def g2afterExchange : GameState :=
  { players := [(1, ⟨[Card.Duke, Card.Ambassador], 3⟩),
                (2, ⟨[Card.Contessa, Card.Captain], 2⟩)],
    court_deck := [Card.Ambassador, Card.Duke, Card.Assassin, Card.Contessa,
                   Card.Captain, Card.Ambassador, Card.Duke, Card.Assassin,
                   Card.Contessa, Card.Assassin, Card.Captain],
    discarded_cards := [], game_started := true, current_player := some 2 }

/-- **C1** (amended).  Card conservation holds across influence loss,
challenge card-swaps, exchange, and elimination (whose win path restores
the sum by a full reset), but it is broken by the two departure-style
removals: `advance_turn` deletes a mid-game departer together with their
whole hand (the sum drops by the hand size), and `start` deals two cards
to every joiner before dropping the DM-unreachable ones with their cards
(the sum at the table falls short of 15 by two per dropped player). -/
theorem claim1_card_conservation :
    (∀ (s : GameState) (p : Nat) (s2 : GameState) (c : Option Card),
      lose_influence s p = some (s2, c) → cardSum s2 = cardSum s) ∧
    (∀ (s : GameState) (p : Nat) (c : Card),
      cardSum (handle_card_swap s p c) = cardSum s) ∧
    (∀ (shuffle : List Card → List Card) (s : GameState) (p : Nat)
      (r : Bool × Bool × Option Nat × GameState),
      (∀ l, (shuffle l).Perm l) →
      handle_player_elimination shuffle s p = some r →
      cardSum s = 15 → cardSum r.2.2.2 = 15) ∧
    (∀ (shuffle rshuffle : List Card → List Card) (present : Nat → Bool)
      (s : GameState) (actor : Nat) (dmOkActor : Bool) (picks : List Nat)
      (rj : Option Reject) (s2 : GameState),
      (∀ p, present p = true) → (∀ l, (rshuffle l).Perm l) →
      exchange shuffle rshuffle present s actor ChallengeWindow.noResponse
        dmOkActor picks = some (rj, s2) → cardSum s2 = cardSum s) ∧
    (∀ (present : Nat → Bool) (fuel : Nat) (s : GameState) (cur cp : Nat)
      (dcp : PlayerData) (qd : Nat × PlayerData),
      (lookupP s.players cur).isSome = true →
      get_next_player s cur = some cp → present cp = false →
      lookupP s.players cp = some dcp →
      check_win_condition { s with players := removeP s.players cp, current_player := some cp } = none →
      lookupP (removeP s.players cp) cp = none →
      (removeP s.players cp).head? = some qd → present qd.1 = true →
      advance_turn present (fuel + 2) s cur
        = some { s with players := removeP s.players cp, current_player := some qd.1 } ∧
      cardSum { s with players := removeP s.players cp, current_player := some qd.1 }
        + dcp.cards.length = cardSum s) ∧
    (∀ (shuffle : List Card → List Card) (pshuffle : List Nat → List Nat)
      (dmOk : Nat → Bool) (joiners : List Nat) (s : GameState),
      s.game_started = false → 2 ≤ joiners.length → joiners.length ≤ 7 →
      joiners.Nodup → (∀ l, (shuffle l).Perm l) →
      (∀ l : List Nat, (pshuffle l).Perm l) →
      cardSum (start shuffle pshuffle dmOk joiners s)
        + 2 * (joiners.filter (fun p => !dmOk p)).length = 15) :=
  ⟨lose_influence_cardSum, card_swap_cardSum,
    fun shuffle s p r hperm h hsum => elimination_cardSum shuffle s p r hperm h hsum,
    exchange_noresponse_cardSum, advance_turn_departure_removal,
    fun shuffle pshuffle dmOk joiners s hns h2 h7 hnd hs hp =>
      (start_spec shuffle pshuffle dmOk joiners s hns h2 h7 hnd hs hp).2.2.2.2⟩

/-- **C1** counterexample: the 3-player table `g3` satisfies the 15-card
invariant; player 2 then departs the platform and `advance_turn` deletes
them together with the two cards still in their hand.  The resulting state
is stable (the game is still running, between completed actions) yet its
card sum is 13, not 15. -/
theorem claim1_counterexample :
    cardSum g3 = 15 ∧ g3.game_started = true ∧
    advance_turn absent2 4 g3 1 = some g3afterDeparture ∧
    g3afterDeparture.game_started = true ∧
    cardSum g3afterDeparture = 13 ∧ ¬((13 : Nat) = 15) := by
  refine ⟨by decide, by decide, by decide, by decide, by decide, by decide⟩

set_option maxHeartbeats 1000000 in
/-- Closed instantiation of `claim1_card_conservation`: influence loss on
`g2`, a card swap on `g2`, the win-path reset of `gElimWin`, an exchange on
`g2`, the departure of player 2 from `g3`, and a `start` on `table0` in
which player 3 is DM-unreachable. -/
theorem claim1_witness :
    (lose_influence g2 1 = some (g2afterLose, some Card.Assassin) ∧
      cardSum g2afterLose = cardSum g2) ∧
    cardSum (handle_card_swap g2 1 Card.Duke) = cardSum g2 ∧
    (handle_player_elimination id gElimWin 3 = some (true, true, none, gWinReset) ∧
      cardSum gElimWin = 15 ∧ cardSum gWinReset = 15) ∧
    (exchange id id allPresent g2 1 ChallengeWindow.noResponse true [0, 2]
        = some (none, g2afterExchange) ∧
      cardSum g2afterExchange = cardSum g2) ∧
    (lookupP g3.players 2 = some ⟨[Card.Contessa, Card.Captain], 2⟩ ∧
      advance_turn absent2 4 g3 1
        = some { g3 with players := removeP g3.players 2, current_player := some 1 } ∧
      cardSum { g3 with players := removeP g3.players 2, current_player := some 1 } + 2
        = cardSum g3) ∧
    (table0.game_started = false ∧ ([1, 2, 3] : List Nat).Nodup ∧
      cardSum (start id id dmFail3 [1, 2, 3] table0)
        + 2 * (([1, 2, 3] : List Nat).filter (fun p => !dmFail3 p)).length = 15) := by
  refine ⟨⟨by decide, claim1_card_conservation.1 g2 1 g2afterLose (some Card.Assassin) (by decide)⟩,
    claim1_card_conservation.2.1 g2 1 Card.Duke,
    ⟨by decide, by decide,
      claim1_card_conservation.2.2.1 id gElimWin 3 (true, true, none, gWinReset)
        (fun l => List.Perm.refl l) (by decide) (by decide)⟩,
    ⟨by decide,
      claim1_card_conservation.2.2.2.1 id id allPresent g2 1 true [0, 2] none
        g2afterExchange (fun p => rfl) (fun l => List.Perm.refl l) (by decide)⟩,
    ⟨by decide, ?_, ?_⟩,
    ⟨rfl, by decide, ?_⟩⟩
  · exact (claim1_card_conservation.2.2.2.2.1 absent2 2 g3 1 2
      ⟨[Card.Contessa, Card.Captain], 2⟩ (1, ⟨[Card.Duke, Card.Assassin], 3⟩)
      (by decide) (by decide) rfl (by decide) (by decide) (by decide) (by decide) rfl).1
  · exact (claim1_card_conservation.2.2.2.2.1 absent2 2 g3 1 2
      ⟨[Card.Contessa, Card.Captain], 2⟩ (1, ⟨[Card.Duke, Card.Assassin], 3⟩)
      (by decide) (by decide) rfl (by decide) (by decide) (by decide) (by decide) rfl).2
  · exact claim1_card_conservation.2.2.2.2.2 id id dmFail3 [1, 2, 3] table0
      rfl (by decide) (by decide) (by decide)
      (fun l => List.Perm.refl l) (fun l => List.Perm.refl l)

/-- **C3** (amended).  DM-unreachable joiners are indeed dropped from the
roster and the game aborts iff fewer than two deliverable joiners remain,
but the drop happens *after* dealing, not before: the court deck ends with
`15 - 2·(all joiners)` cards, so two cards are consumed for every dropped
player as well. -/
theorem claim3_predeal_drop (shuffle : List Card → List Card)
    (pshuffle : List Nat → List Nat) (dmOk : Nat → Bool) (joiners : List Nat)
    (s : GameState) (hns : s.game_started = false)
    (h2 : 2 ≤ joiners.length) (h7 : joiners.length ≤ 7) (hnd : joiners.Nodup)
    (hs : ∀ l, (shuffle l).Perm l) (hp : ∀ l : List Nat, (pshuffle l).Perm l) :
    (∀ p, dmOk p = false → lookupP (start shuffle pshuffle dmOk joiners s).players p = none) ∧
    (start shuffle pshuffle dmOk joiners s).players.length
      = (joiners.filter dmOk).length ∧
    ((start shuffle pshuffle dmOk joiners s).game_started = true
      ↔ 2 ≤ (joiners.filter dmOk).length) ∧
    (start shuffle pshuffle dmOk joiners s).court_deck.length = 15 - 2 * joiners.length := by
  obtain ⟨hdeck, hdrop, hlen, hstart, hsum⟩ :=
    start_spec shuffle pshuffle dmOk joiners s hns h2 h7 hnd hs hp
  exact ⟨hdrop, hlen, hstart, hdeck⟩

/-- **C3** counterexample: three players join, player 3's private channel is
unreachable.  The game starts with the 2 deliverable players — but the court
deck holds 9 = 15 − 2·3 cards, not 11 = 15 − 2·2: two cards were dealt to
the dropped player before the drop, so the drop is not "before cards are
dealt". -/
theorem claim3_counterexample :
    (start id id dmFail3 [1, 2, 3] table0).game_started = true ∧
    (start id id dmFail3 [1, 2, 3] table0).players.length = 2 ∧
    (start id id dmFail3 [1, 2, 3] table0).court_deck.length = 9 ∧
    ¬((9 : Nat) = 15 - 2 * 2) := by
  refine ⟨by decide, by decide, by decide, by decide⟩

/-- Closed instantiation of `claim3_predeal_drop` at the same scenario as
the counterexample: player 3 is dropped, the game starts with 2 players,
and the deck length is 15 − 2·3. -/
theorem claim3_witness :
    table0.game_started = false ∧ ([1, 2, 3] : List Nat).Nodup ∧
    ((∀ p, dmFail3 p = false → lookupP (start id id dmFail3 [1, 2, 3] table0).players p = none) ∧
      (start id id dmFail3 [1, 2, 3] table0).players.length
        = (([1, 2, 3] : List Nat).filter dmFail3).length ∧
      ((start id id dmFail3 [1, 2, 3] table0).game_started = true
        ↔ 2 ≤ (([1, 2, 3] : List Nat).filter dmFail3).length) ∧
      (start id id dmFail3 [1, 2, 3] table0).court_deck.length = 15 - 2 * 3) :=
  ⟨rfl, by decide,
    claim3_predeal_drop id id dmFail3 [1, 2, 3] table0 rfl (by decide) (by decide)
      (by decide) (fun l => List.Perm.refl l) (fun l => List.Perm.refl l)⟩

end Coup
